import Mathlib

/-!
Shallow embedding of the starwind-ui-mcp server's cache / rate-limit /
fetch-fallback layer, catalog search, and command validation logic.

Sources embedded (TypeScript):
- `DocsCache`, `RateLimiter` (docs-tool variant), and the `starwind_docs`
  tool handler;
- `RateLimiter` (pro-blocks variant), `getManifest`, `scoreMatch` and the
  `search_starwind_pro_blocks` handler;
- `getAvailableComponents`, `validateComponents`, `parseComponentsFromLlmsTxt`
  and the `starwind_add` handler;
- `starwind_init` helpers.

Modelling conventions: `Date.now()` timestamps are explicit `Int` arguments
(milliseconds); network I/O is an explicit `Option` oracle argument (`none` =
transport failure or non-success HTTP status); methods mutating a class field
are state-passing functions returning the new state; JS `Map` objects are
functions `String → Option _`; JS strings are Lean `String`s with ASCII-faithful
`toLowerCase` / `trim` / `includes` models. Thrown errors are explicit outcome
constructors. Response fields that are constant advisory strings
(`proRequirements`, `hint`, `message`, `instructions` texts) are not modelled.
-/

/-! ## JavaScript string and number primitives -/

/-- The whitespace characters relevant to JS `trim` / `\s` for the ASCII-plus
texts this server handles (space, tab, LF, CR, VT, FF, NBSP). -/
def jsWhitespaceChar (c : Char) : Bool :=
  c = ' ' || c = '\t' || c = '\n' || c = '\x0d' || c = '\x0b' || c = '\x0c' || c = '\u00A0'

/-- JS `String.prototype.toLowerCase` (ASCII fragment, as `Char.toLower`). -/
def jsLower (s : String) : String :=
  ⟨s.data.map Char.toLower⟩

/-- Trim from the front: drop leading whitespace. -/
def trimLeadingWs (l : List Char) : List Char :=
  l.dropWhile jsWhitespaceChar

/-- Trim from the back: drop trailing whitespace. -/
def trimTrailingWs (l : List Char) : List Char :=
  (trimLeadingWs l.reverse).reverse

/-- JS `String.prototype.trim`: drop whitespace from both ends. -/
def jsTrim (s : String) : String :=
  ⟨trimTrailingWs (trimLeadingWs s.data)⟩

/-- Sequence containment on character lists (`needle` occurs contiguously). -/
def listIncl (needle : List Char) : List Char → Bool
  | [] => needle.isEmpty
  | c :: rest => needle.isPrefixOf (c :: rest) || listIncl needle rest

/-- JS `String.prototype.includes`. -/
def jsIncludes (hay needle : String) : Bool :=
  listIncl needle.data hay.data

/-- `Math.ceil(a / b)` for integer `a` and positive integer `b`. -/
def jsCeilDiv (a b : Int) : Int :=
  -(Int.fdiv (-a) b)

/-- `Math.floor(a / b)` for integer `a` and positive integer `b`. -/
def jsFloorDiv (a b : Int) : Int :=
  Int.fdiv a b

/-! ## DocsCache (starwind_docs_tool.ts)

```ts
class DocsCache {
  private cache: Map<string, CacheEntry> = new Map();
  get(key) { ... }  set(key, data, ttlSeconds) { ... }  getInfo(key) { ... }
}
```
-/

/-- `interface CacheEntry { data; timestamp; expiresAt }`. -/
structure CacheEntry where
  data : String
  timestamp : Int
  expiresAt : Int
deriving Repr, DecidableEq

/-- The private `Map<string, CacheEntry>` of a `DocsCache` instance. -/
def DocsCache : Type := String → Option CacheEntry

/-- The empty cache (a fresh `new DocsCache()`). -/
def DocsCache.empty : DocsCache := fun _ => none

/-- Age / remaining-TTL introspection record returned by `getInfo`. -/
structure CacheInfo where
  age : Int
  remainingTtl : Int
deriving Repr, DecidableEq

namespace DocsCache

/-- `get(key)`: absent if no entry; if `Date.now() > entry.expiresAt`, delete
the entry and return absent (lazy expiration); else return the data.
Returns the possibly-updated map alongside the result. -/
def get (now : Int) (key : String) (c : DocsCache) : Option String × DocsCache :=
  match c key with
  | none => (none, c)
  | some entry =>
    if entry.expiresAt < now then
      (none, fun k => if k = key then none else c k)
    else
      (some entry.data, c)

/-- `set(key, data, ttlSeconds)`: always overwrites;
`expiresAt = now + ttlSeconds * 1000`. -/
def set (now : Int) (key data : String) (ttlSeconds : Int) (c : DocsCache) : DocsCache :=
  fun k => if k = key then some ⟨data, now, now + ttlSeconds * 1000⟩ else c k

/-- `getInfo(key)`: age and remaining TTL in whole seconds (remaining TTL
clamped to 0), or absent if no entry. The method body performs no mutation,
so the map component of the result is the input map. -/
def getInfo (now : Int) (key : String) (c : DocsCache) : Option CacheInfo × DocsCache :=
  match c key with
  | none => (none, c)
  | some entry =>
    (some ⟨jsFloorDiv (now - entry.timestamp) 1000,
           max 0 (jsFloorDiv (entry.expiresAt - now) 1000)⟩, c)

end DocsCache

/-! ## RateLimiter, docs-tool variant (starwind_docs_tool.ts)

```ts
class RateLimiter {
  private lastCallTimes: number[] = [];
  private maxCallsPerMinute: number;
  canMakeCall() { ... }  recordCall() { ... }
  getRemainingCalls() { ... }  getResetTimeSeconds() { ... }
}
```
State is the `lastCallTimes` list; `maxCallsPerMinute` is passed explicitly.
-/

namespace DocsRateLimiter

/-- `this.lastCallTimes.filter((time) => time > oneMinuteAgo)` with
`oneMinuteAgo = now - 60 * 1000`. -/
def pruneWindow (now : Int) (ts : List Int) : List Int :=
  ts.filter (fun t => now - 60000 < t)

/-- `canMakeCall()`: prunes, then compares the retained count to the limit. -/
def canMakeCall (maxCallsPerMinute : Nat) (now : Int) (ts : List Int) :
    Bool × List Int :=
  let ts' := pruneWindow now ts
  (ts'.length < maxCallsPerMinute, ts')

/-- `recordCall()`: appends `Date.now()` unconditionally (no pruning). -/
def recordCall (now : Int) (ts : List Int) : List Int :=
  ts ++ [now]

/-- `getRemainingCalls()`: prunes, then `Math.max(0, max - length)`. -/
def getRemainingCalls (maxCallsPerMinute : Nat) (now : Int) (ts : List Int) :
    Int × List Int :=
  let ts' := pruneWindow now ts
  (max 0 ((maxCallsPerMinute : Int) - ts'.length), ts')

/-- `getResetTimeSeconds()`: `0` on an empty list, else
`Math.max(0, Math.ceil(60 - (Date.now() - oldest) / 1000))` with
`oldest = Math.min(...lastCallTimes)`. Reads the list without pruning. -/
def getResetTimeSeconds (now : Int) (ts : List Int) : Int :=
  match ts with
  | [] => 0
  | h :: t => max 0 (jsCeilDiv (60000 - (now - t.foldl min h)) 1000)

/-- Evaluation order of the `rateLimitInfo` object literal:
`requestsRemaining` (prunes) then `resetAfter` (reads the pruned list). -/
def rateLimitInfo (maxCallsPerMinute : Nat) (now : Int) (ts : List Int) :
    (Int × Int) × List Int :=
  let (remaining, ts') := getRemainingCalls maxCallsPerMinute now ts
  ((remaining, getResetTimeSeconds now ts'), ts')

end DocsRateLimiter

/-! ## RateLimiter, pro-blocks variant (search_pro_blocks_tool.ts)

```ts
class RateLimiter {
  private calls: number[] = [];
  constructor(maxCalls = 3, windowMs = 60 * 1000) { ... }
  canMakeCall() { ... }  recordCall() { ... }  getResetTimeSeconds() { ... }
  private cleanup() { ... }
}
```
-/

namespace ProRateLimiter

/-- `private cleanup()`: `this.calls.filter((time) => now - time < windowMs)`. -/
def cleanup (windowMs now : Int) (calls : List Int) : List Int :=
  calls.filter (fun t => now - t < windowMs)

/-- `canMakeCall()`: calls `cleanup` then compares to `maxCalls`. -/
def canMakeCall (maxCalls : Nat) (windowMs now : Int) (calls : List Int) :
    Bool × List Int :=
  let calls' := cleanup windowMs now calls
  (calls'.length < maxCalls, calls')

/-- `recordCall()`: appends `Date.now()` without pruning. -/
def recordCall (now : Int) (calls : List Int) : List Int :=
  calls ++ [now]

/-- `getResetTimeSeconds()`: calls `cleanup`; `0` on an empty list, else
`Math.max(0, Math.ceil((calls[0] + windowMs - now) / 1000))`. -/
def getResetTimeSeconds (windowMs now : Int) (calls : List Int) :
    Int × List Int :=
  let calls' := cleanup windowMs now calls
  match calls' with
  | [] => (0, calls')
  | oldest :: _ => (max 0 (jsCeilDiv (oldest + windowMs - now) 1000), calls')

end ProRateLimiter

/-! ## Content filter (topic filtering inside the starwind_docs handler) -/

/-- The regex `^(#{1,3})\s+(.+)` applied to one line: 1–3 leading `#`,
at least one whitespace character, then a non-empty captured remainder.
Returns the header level and the captured header text. When everything after
the whitespace run is empty, the lazy backtracking of `\s+`/`(.+)` leaves the
final whitespace character as the capture. -/
def headerMatch (line : String) : Option (Nat × String) :=
  let cs := line.data
  let hashes := (cs.takeWhile (· = '#')).length
  if 1 ≤ hashes ∧ hashes ≤ 3 then
    let after := cs.drop hashes
    let wsRun := after.takeWhile jsWhitespaceChar
    let rest := after.dropWhile jsWhitespaceChar
    if wsRun.length = 0 then none
    else if rest.isEmpty then
      if 2 ≤ wsRun.length then some (hashes, ⟨[wsRun.getLastD ' ']⟩) else none
    else some (hashes, ⟨rest⟩)
  else none

/-- The section-capture loop of the topic filter: scans lines tracking
`inRelevantSection` and `sectionDepth`, capturing matching sections. -/
def sectionCapture (topic : String) :
    List String → Bool → Nat → List String
  | [], _, _ => []
  | line :: rest, inRelevantSection, sectionDepth =>
    match headerMatch line with
    | some (headerLevel, headerText) =>
      if jsIncludes (jsLower headerText) topic then
        line :: sectionCapture topic rest true headerLevel
      else if inRelevantSection ∧ headerLevel ≤ sectionDepth then
        sectionCapture topic rest false sectionDepth
      else if inRelevantSection then
        line :: sectionCapture topic rest inRelevantSection sectionDepth
      else
        sectionCapture topic rest inRelevantSection sectionDepth
    | none =>
      if inRelevantSection then
        line :: sectionCapture topic rest inRelevantSection sectionDepth
      else
        sectionCapture topic rest inRelevantSection sectionDepth

/-- The fixed "not found" message (topic interpolated verbatim). -/
def topicNotFoundMessage (rawTopic : String) : String :=
  "No documentation found for topic: \"" ++ rawTopic ++
    "\". Try searching for: button, accordion, dialog, card, theming, installation, or use without a topic filter to see all available documentation."

/-- The full topic filter applied to fetched documentation: structured section
capture, then flat substring filtering, then the fixed not-found message. -/
def applyTopicFilter (rawTopic docsContent : String) : String :=
  let topic := jsTrim (jsLower rawTopic)
  let lines := docsContent.splitOn "\n"
  let filteredLines := sectionCapture topic lines false 0
  if ¬ filteredLines.isEmpty then
    String.intercalate "\n" filteredLines
  else
    let relevantLines := lines.filter (fun line => jsIncludes (jsLower line) topic)
    if ¬ relevantLines.isEmpty then
      String.intercalate "\n" relevantLines
    else
      topicNotFoundMessage rawTopic

/-! ## starwind_docs tool: constants, state and handler -/

/-- Provenance tag attached to every resolved resource. -/
inductive Source where
  | cache
  | network
  | fallback
deriving Repr, DecidableEq

/-- `pageType` field of a specific-page docs response. -/
inductive PageType where
  | component
  | guide
deriving Repr, DecidableEq

/-- `DOCS_URLS` of starwind_docs_tool.ts. -/
def DOCS_URLS_standard : String := "https://starwind.dev/llms.txt"

/-- `DOCS_URLS.full`. -/
def DOCS_URLS_full : String := "https://starwind.dev/llms-full.txt"

/-- `DOCS_URLS.base`. -/
def DOCS_URLS_base : String := "https://starwind.dev"

/-- `CACHE_TTL` (seconds): `STANDARD = 60*60`, `FULL = 60*60*3`, `PAGE = 60*60*2`. -/
def CACHE_TTL_STANDARD : Int := 3600

/-- `CACHE_TTL.FULL`. -/
def CACHE_TTL_FULL : Int := 10800

/-- `CACHE_TTL.PAGE`. -/
def CACHE_TTL_PAGE : Int := 7200

/-- The docs tool's rate limiter is constructed as `new RateLimiter(10)`. -/
def DOCS_RATE_LIMIT : Nat := 10

/-- `KNOWN_COMPONENTS` of starwind_docs_tool.ts. -/
def KNOWN_COMPONENTS : List String :=
  ["accordion", "alert", "alert-dialog", "aspect-ratio", "avatar", "badge",
   "breadcrumb", "button", "calendar", "card", "carousel", "checkbox",
   "collapsible", "combobox", "command", "context-menu", "dialog", "drawer",
   "dropdown-menu", "form", "hover-card", "input", "input-otp", "label",
   "menubar", "navigation-menu", "pagination", "popover", "progress",
   "radio-group", "resizable", "scroll-area", "select", "separator", "sheet",
   "sidebar", "skeleton", "slider", "sonner", "switch", "table", "tabs",
   "textarea", "toggle", "toggle-group", "tooltip"]

/-- `DOC_PAGE_PATHS` of starwind_docs_tool.ts. -/
def DOC_PAGE_PATHS : List (String × String) :=
  [("installation", "/docs/getting-started/installation/"),
   ("getting-started", "/docs/getting-started/installation/"),
   ("theming", "/docs/getting-started/theming/"),
   ("themes", "/docs/getting-started/themes/"),
   ("dark-mode", "/docs/getting-started/dark-mode/"),
   ("darkmode", "/docs/getting-started/dark-mode/"),
   ("typography", "/docs/getting-started/typography/"),
   ("cli", "/docs/getting-started/cli/"),
   ("about", "/docs/getting-started/"),
   ("introduction", "/docs/getting-started/"),
   ("ai", "/docs/getting-started/ai/"),
   ("ai-integration", "/docs/getting-started/ai/")]

/-- `getMarkdownUrl(topic)`: known doc page, known component, or a component
URL guess; the TypeScript return type admits `null` but every branch returns
a URL. -/
def getMarkdownUrl (topic : String) : Option String :=
  let normalized := jsTrim (jsLower topic)
  match DOC_PAGE_PATHS.lookup normalized with
  | some path => some (DOCS_URLS_base ++ path ++ "markdown.md")
  | none =>
    if KNOWN_COMPONENTS.contains normalized then
      some (DOCS_URLS_base ++ "/docs/components/" ++ normalized ++ "/markdown.md")
    else
      -- "Try as a component anyway (might be a new component not in our list)"
      some (DOCS_URLS_base ++ "/docs/components/" ++ normalized ++ "/markdown.md")

/-- Module-level singleton state of starwind_docs_tool.ts: the `DocsCache`
instance and the shared `RateLimiter(10)` instance. -/
structure DocsState where
  cache : DocsCache
  lastCallTimes : List Int

/-- Fresh module state (as after `resetDocsToolState()`). -/
def DocsState.initial : DocsState := ⟨DocsCache.empty, []⟩

/-- Arguments of the starwind_docs handler. -/
structure StarwindDocsArgs where
  topic : Option String := none
  full : Option Bool := none
deriving Repr, DecidableEq

/-- One docs-tool response (advisory constant strings omitted). -/
structure DocsResult where
  documentation : String
  source : Source
  url : String
  topic : Option String
  full : Bool
  pageType : Option PageType
  cacheInfo : Option CacheInfo
  requestsRemaining : Int
  resetAfter : Int
deriving Repr, DecidableEq

/-- Handler outcome: a returned response, a thrown rate-limit error carrying
`getResetTimeSeconds()` and the advertised per-minute limit, or a thrown
fetch-failure error. -/
inductive DocsOutcome where
  | ok (r : DocsResult)
  | rateLimited (resetSeconds : Int) (limitPerMinute : Nat)
  | fetchFailed
deriving Repr, DecidableEq

/-- The truthiness coercion JS applies to `args.topic` (`if (args.topic)` and
`args.topic || null`): the empty string behaves as absent. -/
def truthyTopic (topic : Option String) : Option String :=
  match topic with
  | some s => if s = "" then none else some s
  | none => none

/-- The llms.txt portion of the starwind_docs handler (the code after the
specific-page block): cache lookup, rate-limit check, fetch, cache
population, topic filtering, response assembly. `topicRaw` is the truthy
`args.topic`; when present the final `source` is overwritten to `"fallback"`. -/
def llmsPath (topicRaw : Option String) (isFull : Bool) (now : Int)
    (netDocs : Option String) (st : DocsState) : DocsOutcome × DocsState :=
  let url := if isFull then DOCS_URLS_full else DOCS_URLS_standard
  let cacheKey := if isFull then "docs_full" else "docs_standard"
  let cacheTtl := if isFull then CACHE_TTL_FULL else CACHE_TTL_STANDARD
  let (cached, cache1) := DocsCache.get now cacheKey st.cache
  let finish := fun (docsContent : String) (source0 : Source)
      (cacheF : DocsCache) (limF : List Int) =>
    let (filteredContent, source) :=
      match topicRaw with
      | none => (docsContent, source0)
      | some raw => (applyTopicFilter raw docsContent, Source.fallback)
    let (cacheInfo, cacheG) := DocsCache.getInfo now cacheKey cacheF
    let ((remaining, resetAfter), limG) :=
      DocsRateLimiter.rateLimitInfo DOCS_RATE_LIMIT now limF
    (DocsOutcome.ok
       { documentation := filteredContent, source, url, topic := topicRaw,
         full := isFull, pageType := none, cacheInfo,
         requestsRemaining := remaining, resetAfter },
     DocsState.mk cacheG limG)
  match cached with
  | some docsContent => finish docsContent Source.cache cache1 st.lastCallTimes
  | none =>
    let (can, lim1) := DocsRateLimiter.canMakeCall DOCS_RATE_LIMIT now st.lastCallTimes
    if ¬ can then
      (DocsOutcome.rateLimited (DocsRateLimiter.getResetTimeSeconds now lim1)
         DOCS_RATE_LIMIT,
       DocsState.mk cache1 lim1)
    else
      let lim2 := DocsRateLimiter.recordCall now lim1
      match netDocs with
      | none => (DocsOutcome.fetchFailed, DocsState.mk cache1 lim2)
      | some docsContent =>
        let cache2 := DocsCache.set now cacheKey docsContent cacheTtl cache1
        finish docsContent Source.network cache2 lim2

/-- Assembles a specific-page docs response (used for both the page cache hit
and the fresh page fetch). -/
def pageResult (raw topic pageContent mdUrl : String) (source : Source)
    (now : Int) (pageCacheKey : String) (cacheF : DocsCache) (limF : List Int) :
    DocsOutcome × DocsState :=
  let (cacheInfo, cacheG) := DocsCache.getInfo now pageCacheKey cacheF
  let ((remaining, resetAfter), limG) :=
    DocsRateLimiter.rateLimitInfo DOCS_RATE_LIMIT now limF
  (DocsOutcome.ok
     { documentation := pageContent, source, url := mdUrl, topic := some raw,
       full := true,
       pageType := some (if KNOWN_COMPONENTS.contains topic then
         PageType.component else PageType.guide),
       cacheInfo, requestsRemaining := remaining, resetAfter },
   DocsState.mk cacheG limG)

/-- The starwind_docs handler. `netPage` is the network's answer for the
specific-page fetch (`fetchDocPage`), `netDocs` for the llms.txt fetch; `none`
models a transport failure or non-success status. -/
def starwindDocsHandler (args : StarwindDocsArgs) (now : Int)
    (netPage netDocs : Option String) (st : DocsState) :
    DocsOutcome × DocsState :=
  let isFull := args.full = some true
  match truthyTopic args.topic with
  | none => llmsPath none isFull now netDocs st
  | some raw =>
    let topic := jsTrim (jsLower raw)
    match getMarkdownUrl topic with
    | none => llmsPath (some raw) isFull now netDocs st
    | some mdUrl =>
      let pageCacheKey := "page_" ++ topic
      let (pageCached, cache1) := DocsCache.get now pageCacheKey st.cache
      match pageCached with
      | some pageContent =>
        pageResult raw topic pageContent mdUrl Source.cache now pageCacheKey
          cache1 st.lastCallTimes
      | none =>
        let (can, lim1) :=
          DocsRateLimiter.canMakeCall DOCS_RATE_LIMIT now st.lastCallTimes
        if ¬ can then
          (DocsOutcome.rateLimited
             (DocsRateLimiter.getResetTimeSeconds now lim1) DOCS_RATE_LIMIT,
           DocsState.mk cache1 lim1)
        else
          let lim2 := DocsRateLimiter.recordCall now lim1
          match netPage with
          | some fetchedContent =>
            let cache2 :=
              DocsCache.set now pageCacheKey fetchedContent CACHE_TTL_PAGE cache1
            pageResult raw topic fetchedContent mdUrl Source.network now
              pageCacheKey cache2 lim2
          | none =>
            -- "Page fetch failed, fall through to llms.txt fallback"
            llmsPath (some raw) isFull now netDocs (DocsState.mk cache1 lim2)

/-! ## search_starwind_pro_blocks tool (search_pro_blocks_tool.ts) -/

/-- `plan: "free" | "pro"`. -/
inductive Plan where
  | free
  | pro
deriving Repr, DecidableEq

/-- `interface ManifestBlock`. -/
structure ManifestBlock where
  id : String
  name : String
  description : String
  categories : List String
  keywords : List String
  plan : Plan
  installCommand : String
  previewUrl : String
deriving Repr, DecidableEq

/-- `interface Manifest` (the `$schema` field is omitted; it is never read). -/
structure Manifest where
  name : String
  version : String
  generatedAt : String
  baseUrl : String
  totalBlocks : Int
  categories : List String
  blocks : List ManifestBlock
deriving Repr, DecidableEq

/-- `interface ManifestCache { data; timestamp; expiresAt }`. -/
structure ManifestCacheEntry where
  data : Manifest
  timestamp : Int
  expiresAt : Int
deriving Repr, DecidableEq

/-- `CACHE_TTL = 60 * 60 * 1000` (milliseconds). -/
def PRO_CACHE_TTL : Int := 3600000

/-- The pro-blocks rate limiter is constructed as `new RateLimiter(3)` with
the default `windowMs = 60 * 1000`. -/
def PRO_RATE_LIMIT : Nat := 3

/-- `windowMs` default of the pro-blocks `RateLimiter`. -/
def PRO_WINDOW_MS : Int := 60000

/-- Module-level singleton state of search_pro_blocks_tool.ts:
`manifestCache` and the `RateLimiter(3)` instance's `calls`. -/
structure ProState where
  manifestCache : Option ManifestCacheEntry
  calls : List Int

/-- Fresh module state (as after `resetProBlocksToolState()`). -/
def ProState.initial : ProState := ⟨none, []⟩

/-- Outcome of `getManifest()`. -/
inductive ManifestOutcome where
  | ok (manifest : Manifest) (source : Source)
  | rateLimited (resetSeconds : Int) (limitPerMinute : Nat)
  | fetchFailed
deriving Repr, DecidableEq

/-- `getManifest()`: cache check (`Date.now() < expiresAt`), rate-limit check
(throwing with `getResetTimeSeconds()`), `recordCall()`, fetch, cache update. -/
def getManifest (now : Int) (net : Option Manifest) (st : ProState) :
    ManifestOutcome × ProState :=
  match st.manifestCache with
  | some mc =>
    if now < mc.expiresAt then (ManifestOutcome.ok mc.data Source.cache, st)
    else getManifestMiss now net st
  | none => getManifestMiss now net st
where
  /-- The cache-miss path of `getManifest()`. -/
  getManifestMiss (now : Int) (net : Option Manifest) (st : ProState) :
      ManifestOutcome × ProState :=
    let (can, calls1) :=
      ProRateLimiter.canMakeCall PRO_RATE_LIMIT PRO_WINDOW_MS now st.calls
    if ¬ can then
      let (reset, calls2) :=
        ProRateLimiter.getResetTimeSeconds PRO_WINDOW_MS now calls1
      (ManifestOutcome.rateLimited reset PRO_RATE_LIMIT,
       ProState.mk st.manifestCache calls2)
    else
      let calls2 := ProRateLimiter.recordCall now calls1
      match net with
      | none => (ManifestOutcome.fetchFailed, ProState.mk st.manifestCache calls2)
      | some manifest =>
        (ManifestOutcome.ok manifest Source.network,
         ProState.mk (some ⟨manifest, now, now + PRO_CACHE_TTL⟩) calls2)

/-- `scoreMatch(block, query)`: exact name match 100 *else* partial name
match 50; id substring 40; exact keyword 30; partial keyword 20; description
substring 10; category substring 15 — all but the name pair additive. -/
def scoreMatch (block : ManifestBlock) (query : String) : Int :=
  let q := jsLower query
  let score0 : Int := 0
  let score1 :=
    if jsLower block.name = q then score0 + 100
    else if jsIncludes (jsLower block.name) q then score0 + 50
    else score0
  let score2 := if jsIncludes (jsLower block.id) q then score1 + 40 else score1
  let score3 :=
    if block.keywords.any (fun k => jsLower k = q) then score2 + 30 else score2
  let score4 :=
    if block.keywords.any (fun k => jsIncludes (jsLower k) q) then score3 + 20
    else score3
  let score5 :=
    if jsIncludes (jsLower block.description) q then score4 + 10 else score4
  let score6 :=
    if block.categories.any (fun c => jsIncludes (jsLower c) q) then score5 + 15
    else score5
  score6

/-- `formatDuration(ms)`: human-readable cache age. -/
def formatDuration (ms : Int) : String :=
  let seconds := jsFloorDiv ms 1000
  if seconds < 60 then toString seconds ++ "s"
  else
    let minutes := jsFloorDiv seconds 60
    if minutes < 60 then toString minutes ++ "m " ++ toString (seconds % 60) ++ "s"
    else
      let hours := jsFloorDiv minutes 60
      toString hours ++ "h " ++ toString (minutes % 60) ++ "m"

/-- Insert one scored block into a list sorted by descending score, after all
already-placed entries of equal score. This realizes the ECMAScript guarantee
that `Array.prototype.sort` with the comparator `(a, b) => b.score - a.score`
is a stable descending sort. -/
def insertByScoreDesc (x : ManifestBlock × Int) :
    List (ManifestBlock × Int) → List (ManifestBlock × Int)
  | [] => [x]
  | y :: ys => if y.2 ≤ x.2 then x :: y :: ys else y :: insertByScoreDesc x ys

/-- Stable sort by descending score. -/
def sortByScoreDesc (l : List (ManifestBlock × Int)) :
    List (ManifestBlock × Int) :=
  l.foldr insertByScoreDesc []

/-- The query step of the handler: score every block, drop zero scores, sort
descending by score (stable). -/
def rankByQuery (blocks : List ManifestBlock) (query : String) :
    List (ManifestBlock × Int) :=
  sortByScoreDesc
    ((blocks.map (fun block => (block, scoreMatch block query))).filter
      (fun s => 0 < s.2))

/-- Arguments of the pro-blocks search handler. -/
structure SearchProBlocksArgs where
  query : Option String := none
  category : Option String := none
  plan : Option Plan := none
  limit : Option Int := none
deriving Repr, DecidableEq

/-- JS truthiness of an optional string argument (empty string is falsy). -/
def truthyStr (o : Option String) : Bool :=
  match o with
  | some s => s ≠ ""
  | none => false

/-- One block of the search response (`installCommand` gets ` --yes` appended,
`previewUrl` is prefixed with the manifest's `baseUrl`). -/
structure ResponseBlock where
  id : String
  name : String
  description : String
  categories : List String
  plan : Plan
  installCommand : String
  previewUrl : String
deriving Repr, DecidableEq

/-- The search response (advisory constant strings omitted). -/
structure SearchResponse where
  query : Option String
  filterCategory : Option String
  filterPlan : Option Plan
  totalMatches : Nat
  resultsReturned : Nat
  blocks : List ResponseBlock
  availableCategories : List String
  source : Source
  cacheInfo : Option (String × String)
deriving Repr, DecidableEq

/-- The `if (category)` filter step of the handler (exact case-insensitive
category match; a falsy category is a no-op). -/
def applyCategoryFilter (category : Option String)
    (results : List ManifestBlock) : List ManifestBlock :=
  match category with
  | some category =>
    if category = "" then results
    else
      let categoryLower := jsLower category
      results.filter (fun block =>
        block.categories.any (fun c => jsLower c = categoryLower))
  | none => results

/-- The `if (plan)` filter step of the handler (exact plan match). -/
def applyPlanFilter (plan : Option Plan) (results : List ManifestBlock) :
    List ManifestBlock :=
  match plan with
  | some plan => results.filter (fun block => block.plan = plan)
  | none => results

/-- The `if (query)` scoring step of the handler (a falsy query is a no-op). -/
def applyQueryScoring (query : Option String) (results : List ManifestBlock) :
    List ManifestBlock :=
  match query with
  | some query =>
    if query = "" then results
    else (rankByQuery results query).map (fun (s : ManifestBlock × Int) => s.1)
  | none => results

/-- The pure post-fetch portion of the pro-blocks search handler: category
filter, plan filter, query scoring, limit clamping, truncation and response
assembly. `cacheInfo` mirrors the `source === "cache"` branch. -/
def searchBlocks (manifest : Manifest) (args : SearchProBlocksArgs)
    (now : Int) (source : Source) (manifestCache : Option ManifestCacheEntry) :
    SearchResponse :=
  let results0 := manifest.blocks
  let results1 := applyCategoryFilter args.category results0
  let results2 := applyPlanFilter args.plan results1
  let results3 := applyQueryScoring args.query results2
  let effectiveLimit := min (max 1 (args.limit.getD 10)) 50
  let totalMatches := List.length results3
  let truncated := List.take effectiveLimit.toNat results3
  { query := if truthyStr args.query then args.query else none,
    filterCategory := if truthyStr args.category then args.category else none,
    filterPlan := args.plan,
    totalMatches,
    resultsReturned := truncated.length,
    blocks := truncated.map (fun (block : ManifestBlock) =>
      { id := block.id, name := block.name, description := block.description,
        categories := block.categories, plan := block.plan,
        installCommand := block.installCommand ++ " --yes",
        previewUrl := manifest.baseUrl ++ block.previewUrl }),
    availableCategories := manifest.categories,
    source,
    cacheInfo :=
      match source, manifestCache with
      | Source.cache, some mc =>
        some (formatDuration (now - mc.timestamp),
              formatDuration (mc.expiresAt - now))
      | _, _ => none }

/-- Outcome of the full pro-blocks search handler. -/
inductive ProSearchOutcome where
  | overview (availableCategories : List String) (totalBlocks : Int)
      (source : Source)
  | results (r : SearchResponse)
  | rateLimited (resetSeconds : Int) (limitPerMinute : Nat)
  | fetchFailed
deriving Repr, DecidableEq

/-- The full pro-blocks search handler: overview mode when no truthy filter is
supplied, else `getManifest()` followed by `searchBlocks`. -/
def searchProBlocksHandler (args : SearchProBlocksArgs) (now : Int)
    (net : Option Manifest) (st : ProState) : ProSearchOutcome × ProState :=
  if ¬ (truthyStr args.query || truthyStr args.category || args.plan.isSome) then
    match getManifest now net st with
    | (ManifestOutcome.ok manifest source, st') =>
      (ProSearchOutcome.overview manifest.categories manifest.totalBlocks source,
       st')
    | (ManifestOutcome.rateLimited r l, st') =>
      (ProSearchOutcome.rateLimited r l, st')
    | (ManifestOutcome.fetchFailed, st') => (ProSearchOutcome.fetchFailed, st')
  else
    match getManifest now net st with
    | (ManifestOutcome.ok manifest source, st') =>
      (ProSearchOutcome.results
         (searchBlocks manifest args now source st'.manifestCache), st')
    | (ManifestOutcome.rateLimited r l, st') =>
      (ProSearchOutcome.rateLimited r l, st')
    | (ManifestOutcome.fetchFailed, st') => (ProSearchOutcome.fetchFailed, st')

/-! ## starwind_add tool (starwind_add_tool.ts) -/

/-- `FALLBACK_COMPONENTS`: bundled static list, used only when fetching or
parsing llms.txt fails. -/
def FALLBACK_COMPONENTS : List String :=
  ["accordion", "alert", "alert-dialog", "aspect-ratio", "avatar", "badge",
   "breadcrumb", "button", "button-group", "card", "carousel", "checkbox",
   "collapsible", "combobox", "dialog", "dropdown", "dropzone", "image",
   "input", "input-otp", "item", "label", "pagination", "progress", "prose",
   "radio-group", "select", "separator", "sheet", "sidebar", "skeleton",
   "slider", "spinner", "switch", "table", "tabs", "textarea", "theme-toggle",
   "toast", "toggle", "tooltip", "video"]

/-- Characters admitted by the slug capture group `[a-z0-9-]`. -/
def isSlugChar (c : Char) : Bool :=
  ('a' ≤ c && c ≤ 'z') || ('0' ≤ c && c ≤ '9') || c = '-'

/-- The literal part of the link regex following the closing bracket:
`(https://starwind.dev/docs/components/`. -/
def componentLinkLiteral : List Char :=
  "(https://starwind.dev/docs/components/".data

/-- Attempts to finish a link match at a candidate `]` position: the literal
URL prefix, a non-empty greedy `[a-z0-9-]+` slug, then `)`. Returns the slug
and the remainder after the match. -/
def matchLinkTail (l : List Char) : Option (String × List Char) :=
  match l with
  | ']' :: r =>
    if componentLinkLiteral.isPrefixOf r then
      let r2 := r.drop componentLinkLiteral.length
      let slug := r2.takeWhile isSlugChar
      match slug, r2.drop slug.length with
      | [], _ => none
      | _, ')' :: r4 => some (⟨slug⟩, r4)
      | _, _ => none
    else none
  | _ => none

/-- The lazy `.+?` expansion after `[` and one consumed character: at each
position, first try to close the bracket and finish the match; otherwise
consume one more non-newline character. -/
def lazyLinkScan : List Char → Option (String × List Char)
  | [] => none
  | c :: rest =>
    match matchLinkTail (c :: rest) with
    | some res => some res
    | none => if c = '\n' then none else lazyLinkScan rest

/-- A whole link match immediately after `[`: at least one non-newline
character, then the lazy scan for the closing bracket. -/
def matchAfterBracket (l : List Char) : Option (String × List Char) :=
  match l with
  | [] => none
  | c :: rest => if c = '\n' then none else lazyLinkScan rest

/-- The `regex.exec` loop: find successive non-overlapping link matches left
to right. `fuel` bounds recursion depth (each step consumes at least one
character, so `length` fuel suffices). -/
def scanLinks (fuel : Nat) : List Char → List String
  | [] => []
  | c :: rest =>
    match fuel with
    | 0 => []
    | fuel' + 1 =>
      if c = '[' then
        match matchAfterBracket rest with
        | some (slug, r) => slug :: scanLinks fuel' r
        | none => scanLinks fuel' rest
      else scanLinks fuel' rest

/-- The accumulating de-duplication of the `while` loop
(`if (slug && !components.includes(slug)) components.push(slug)`). -/
def dedupKeepFirst (seen : List String) : List String → List String
  | [] => []
  | s :: rest =>
    if seen.contains s then dedupKeepFirst seen rest
    else s :: dedupKeepFirst (seen ++ [s]) rest

/-- `parseComponentsFromLlmsTxt(content)`: extract component slugs from
markdown links `[label](https://starwind.dev/docs/components/<slug>)`,
keeping first occurrences only. -/
def parseComponentsFromLlmsTxt (content : String) : List String :=
  dedupKeepFirst [] (scanLinks content.data.length content.data)

/-- `interface ComponentCache { components; timestamp; expiresAt }`. -/
structure ComponentCacheEntry where
  components : List String
  timestamp : Int
  expiresAt : Int
deriving Repr, DecidableEq

/-- `CACHE_TTL = 60 * 60 * 1000` (milliseconds) of starwind_add_tool.ts. -/
def ADD_CACHE_TTL : Int := 3600000

/-- Module-level singleton state of starwind_add_tool.ts. -/
structure AddState where
  componentCache : Option ComponentCacheEntry

/-- Fresh module state (as after `resetAddToolState()`). -/
def AddState.initial : AddState := ⟨none⟩

/-- `getAvailableComponents()`: cache check, fetch-and-parse, fallback to the
bundled list on transport failure, non-success status, or an empty parse.
Note: no rate limiter is consulted anywhere in this resolver. -/
def getAvailableComponents (now : Int) (net : Option String) (st : AddState) :
    (List String × Source) × AddState :=
  match st.componentCache with
  | some cc =>
    if now < cc.expiresAt then ((cc.components, Source.cache), st)
    else getAvailableComponentsFetch now net st
  | none => getAvailableComponentsFetch now net st
where
  /-- The fetch path (the `try`/`catch` body). -/
  getAvailableComponentsFetch (now : Int) (net : Option String)
      (st : AddState) : (List String × Source) × AddState :=
    match net with
    | none => ((FALLBACK_COMPONENTS, Source.fallback), st)
    | some content =>
      let parsed := parseComponentsFromLlmsTxt content
      if parsed.isEmpty then
        -- `throw new Error("No components parsed")` is caught by the same
        -- catch block and becomes the fallback
        ((FALLBACK_COMPONENTS, Source.fallback), st)
      else
        ((parsed, Source.network),
         AddState.mk (some ⟨parsed, now, now + ADD_CACHE_TTL⟩))

/-- `type PackageManager`. -/
inductive PackageManager where
  | npm
  | pnpm
  | yarn
deriving Repr, DecidableEq

/-- `getDlxCommand(pm)` of starwind_add_tool.ts. -/
def getDlxCommand (pm : PackageManager) : String :=
  match pm with
  | PackageManager.pnpm => "pnpm dlx"
  | PackageManager.yarn => "yarn dlx"
  | PackageManager.npm => "npx"

/-- `validateComponents` result record. -/
structure ValidationResult where
  valid : List String
  invalid : List String
  suggestions : List (String × List String)
deriving Repr, DecidableEq

/-- `validateComponents(components, availableComponents)`: normalize each item
(`toLowerCase().trim()`), partition into valid and invalid, and compute
bidirectional-containment suggestions for invalid items. -/
def validateComponents (components availableComponents : List String) :
    ValidationResult :=
  match components with
  | [] => ⟨[], [], []⟩
  | component :: rest =>
    let r := validateComponents rest availableComponents
    let normalized := jsTrim (jsLower component)
    if availableComponents.contains normalized then
      ⟨normalized :: r.valid, r.invalid, r.suggestions⟩
    else
      let similar := availableComponents.filter (fun known =>
        jsIncludes known normalized || jsIncludes normalized known)
      ⟨r.valid, component :: r.invalid,
       if ¬ similar.isEmpty then (component, similar) :: r.suggestions
       else r.suggestions⟩

/-- Arguments of the starwind_add handler (`cwd` feeds only the external
package-manager detection, whose result is the separate `detectedPm`
argument of the handler). -/
structure StarwindAddArgs where
  components : List String
  init : Bool := false
  packageManager : Option PackageManager := none
deriving Repr, DecidableEq

/-- The successful response object of the starwind_add handler (constant
advisory strings omitted). -/
structure AddSuccess where
  packageManager : PackageManager
  commands : List String
  command : String
  componentsToInstall : List String
  warnings : Option (List String × List (String × List String))
  availableComponents : List String
  componentSource : Source
deriving Repr, DecidableEq

/-- Outcome of the starwind_add handler: a thrown error, the structured
`{success: false, error, invalidComponents, suggestions, ...}` result, or a
`{success: true, ...}` result. -/
inductive AddOutcome where
  | thrown (message : String)
  | invalidResult (error : String) (invalidComponents : List String)
      (suggestions : List (String × List String))
      (availableComponents : List String) (componentSource : Source)
  | ok (r : AddSuccess)
deriving Repr, DecidableEq

/-- The starwind_add handler. -/
def starwindAddHandler (args : StarwindAddArgs) (detectedPm : PackageManager)
    (now : Int) (net : Option String) (st : AddState) : AddOutcome × AddState :=
  if args.components.isEmpty then
    (AddOutcome.thrown "At least one component must be specified", st)
  else
    let ((availableComponents, componentSource), st1) :=
      getAvailableComponents now net st
    let pm := args.packageManager.getD detectedPm
    let dlxCommand := getDlxCommand pm
    let installAll := args.components.any (fun c =>
      jsLower c = "--all" || jsLower c = "all")
    let finish := fun (addCommand : String) (componentsToInstall : List String)
        (warnings : Option (List String × List (String × List String))) =>
      let commands :=
        if args.init then
          [dlxCommand ++ " starwind@latest init --defaults", addCommand]
        else [addCommand]
      (AddOutcome.ok
         { packageManager := pm, commands,
           command := String.intercalate " && " commands,
           componentsToInstall, warnings, availableComponents,
           componentSource },
       st1)
    if installAll then
      finish (dlxCommand ++ " starwind@latest add --all --yes") ["all"] none
    else
      let validation := validateComponents args.components availableComponents
      if validation.valid.isEmpty then
        (AddOutcome.invalidResult "No valid components specified"
           validation.invalid validation.suggestions availableComponents
           componentSource,
         st1)
      else
        finish
          (dlxCommand ++ " starwind@latest add " ++
            String.intercalate " " validation.valid ++ " --yes")
          validation.valid
          (if ¬ validation.invalid.isEmpty then
            some (validation.invalid, validation.suggestions)
          else none)

/-! ## General-purpose lemmas -/

/-- A floor division of a negative numerator by 1000 is negative. -/
theorem jsFloorDiv_neg {a : Int} (h : a < 0) : jsFloorDiv a 1000 < 0 := by
  unfold jsFloorDiv
  rw [Int.fdiv_eq_ediv a (by norm_num)]
  exact Int.ediv_neg' h (by norm_num)

/-- Dropping while a predicate holds is idempotent. -/
theorem dropWhile_dropWhile_same {α : Type} (p : α → Bool) (l : List α) :
    (l.dropWhile p).dropWhile p = l.dropWhile p := by
  induction l with
  | nil => rfl
  | cons c t ih =>
    by_cases h : p c
    · simp [List.dropWhile_cons, h, ih]
    · simp [List.dropWhile_cons, h]

/-- `dropWhile` produces a suffix: the input is some prefix plus the result. -/
theorem dropWhile_eq_append {α : Type} (p : α → Bool) (l : List α) :
    ∃ pre, l = pre ++ l.dropWhile p := by
  induction l with
  | nil => exact ⟨[], rfl⟩
  | cons c t ih =>
    by_cases h : p c
    · obtain ⟨pre, hpre⟩ := ih
      exact ⟨c :: pre, by simp [List.dropWhile_cons, h, ← hpre]⟩
    · exact ⟨[], by simp [List.dropWhile_cons, h]⟩

/-! ## Claim theorems -/

/-- **C1.** For every cache key `k`, payload `d`, and `ttl > 0`: immediately
after `DocsCache.set(k, d, ttl)`, `DocsCache.get(k)` returns `d`; once more
than `ttl` seconds have elapsed since the set, `DocsCache.get(k)` returns
absent and deletes the entry, so a subsequent `DocsCache.getInfo(k)` on the
updated cache also returns absent. -/
theorem claim_C1_cache_set_get_expiry (c : DocsCache) (now later : Int)
    (key payload : String) (ttl : Int) (httl : 0 < ttl)
    (hlater : now + ttl * 1000 < later) :
    (DocsCache.get now key (DocsCache.set now key payload ttl c)).1 =
      some payload ∧
    (DocsCache.get later key (DocsCache.set now key payload ttl c)).1 = none ∧
    (DocsCache.getInfo later key
      (DocsCache.get later key (DocsCache.set now key payload ttl c)).2).1 =
      none := by
  have h1 : ¬ (now + ttl * 1000 < now) := by omega
  refine ⟨?_, ?_, ?_⟩
  · simp [DocsCache.get, DocsCache.set, h1]
  · simp [DocsCache.get, DocsCache.set, hlater]
  · simp [DocsCache.get, DocsCache.set, DocsCache.getInfo, hlater]

/-- Witness for C1 at a concrete input: key `"k"`, payload `"d"`, `ttl = 2`
seconds, set at `t = 0`, queried again at `t = 2001` ms. -/
theorem claim_C1_cache_set_get_expiry_witness :
    (DocsCache.get 0 "k" (DocsCache.set 0 "k" "d" 2 DocsCache.empty)).1 =
      some "d" ∧
    (DocsCache.get 2001 "k" (DocsCache.set 0 "k" "d" 2 DocsCache.empty)).1 =
      none ∧
    (DocsCache.getInfo 2001 "k"
      (DocsCache.get 2001 "k" (DocsCache.set 0 "k" "d" 2 DocsCache.empty)).2).1 =
      none :=
  claim_C1_cache_set_get_expiry DocsCache.empty 0 2001 "k" "d" 2 (by decide)
    (by decide)

/-- **C10.** `DocsCache.getInfo(k)` never modifies the cache: for a key whose
entry's `expiresAt` has already passed but which has not yet been evicted by a
`get(k)`, `getInfo` still returns an info object — with `remainingTtl` clamped
to 0 — rather than absent, and the expired entry remains in the map
afterwards. -/
theorem claim_C10_getInfo_pure_expired (c : DocsCache) (now : Int)
    (key : String) (entry : CacheEntry) (hentry : c key = some entry)
    (hexpired : entry.expiresAt < now) :
    (DocsCache.getInfo now key c).2 = c ∧
    (DocsCache.getInfo now key c).1 =
      some ⟨jsFloorDiv (now - entry.timestamp) 1000, 0⟩ ∧
    (DocsCache.getInfo now key c).2 key = some entry := by
  have hmax : max 0 (jsFloorDiv (entry.expiresAt - now) 1000) = 0 := by
    have := jsFloorDiv_neg (a := entry.expiresAt - now) (by omega)
    omega
  refine ⟨?_, ?_, ?_⟩
  · simp only [DocsCache.getInfo, hentry]
  · simp only [DocsCache.getInfo, hentry, hmax]
  · simp only [DocsCache.getInfo, hentry]

/-- Witness for C10: an entry set to expire at `t = 1000`, inspected at
`t = 5000`. -/
theorem claim_C10_getInfo_pure_expired_witness :
    (DocsCache.getInfo 5000 "k"
        (fun k => if k = "k" then some ⟨"d", 0, 1000⟩ else none)).2 =
      (fun k => if k = "k" then some ⟨"d", 0, 1000⟩ else none) ∧
    (DocsCache.getInfo 5000 "k"
        (fun k => if k = "k" then some ⟨"d", 0, 1000⟩ else none)).1 =
      some ⟨5, 0⟩ ∧
    (DocsCache.getInfo 5000 "k"
        (fun k => if k = "k" then some ⟨"d", 0, 1000⟩ else none)).2 "k" =
      some ⟨"d", 0, 1000⟩ :=
  claim_C10_getInfo_pure_expired
    (fun k => if k = "k" then some ⟨"d", 0, 1000⟩ else none) 5000 "k"
    ⟨"d", 0, 1000⟩ (by decide) (by decide)

/-- Every timestamp in the docs limiter's list lies within the trailing
60-second window of `now`. -/
def allWithinDocsWindow (now : Int) (ts : List Int) : Bool :=
  ts.all (fun t => now - 60000 < t)

/-- Every timestamp in the pro-blocks limiter's `calls` lies within the
trailing `windowMs` window of `now`. -/
def allWithinProWindow (windowMs now : Int) (calls : List Int) : Bool :=
  calls.all (fun t => now - t < windowMs)

/-- **C4, counterexample.** The claim says pruning is a side effect of every
one of `canMakeCall`, `recordCall`, `getRemainingCalls`, `getResetTimeSeconds`.
But `recordCall` only appends: starting from a limiter holding one stale
timestamp `0`, after `recordCall` at `now = 100000` the stale timestamp is
still retained and lies outside the trailing 60-second window (in both
limiter variants). -/
theorem claim_C4_counterexample :
    allWithinDocsWindow 100000 (DocsRateLimiter.recordCall 100000 [0]) =
      false ∧
    allWithinProWindow 60000 100000 (ProRateLimiter.recordCall 100000 [0]) =
      false := by
  decide

/-- **C4, amended.** Pruning to the trailing window is a side effect of
`canMakeCall` and `getRemainingCalls` in the docs-tool limiter and of
`canMakeCall` and `getResetTimeSeconds` in the pro-blocks limiter;
`recordCall` (in both variants) appends the current time without pruning,
and the docs-tool `getResetTimeSeconds` reads the list without pruning it. -/
theorem claim_C4_amended (maxCalls : Nat) (windowMs now : Int)
    (ts calls : List Int) :
    allWithinDocsWindow now (DocsRateLimiter.canMakeCall maxCalls now ts).2 =
      true ∧
    allWithinDocsWindow now
      (DocsRateLimiter.getRemainingCalls maxCalls now ts).2 = true ∧
    allWithinProWindow windowMs now
      (ProRateLimiter.canMakeCall maxCalls windowMs now calls).2 = true ∧
    allWithinProWindow windowMs now
      (ProRateLimiter.getResetTimeSeconds windowMs now calls).2 = true ∧
    DocsRateLimiter.recordCall now ts = ts ++ [now] ∧
    ProRateLimiter.recordCall now calls = calls ++ [now] := by
  have hdocs : allWithinDocsWindow now (DocsRateLimiter.pruneWindow now ts) =
      true := by
    simp only [allWithinDocsWindow, DocsRateLimiter.pruneWindow,
      List.all_eq_true]
    intro x hx
    exact (List.mem_filter.mp hx).2
  have hpro : allWithinProWindow windowMs now
      (ProRateLimiter.cleanup windowMs now calls) = true := by
    simp only [allWithinProWindow, ProRateLimiter.cleanup, List.all_eq_true]
    intro x hx
    exact (List.mem_filter.mp hx).2
  refine ⟨hdocs, hdocs, hpro, ?_, rfl, rfl⟩
  simp only [ProRateLimiter.getResetTimeSeconds]
  cases h : ProRateLimiter.cleanup windowMs now calls with
  | nil => simpa [h] using hpro
  | cons a l => simpa [h] using hpro

/-! ## Normalization lemmas for C8 -/

/-- No character with code in `[65, 122]` is a JS whitespace character. -/
theorem jsWhitespaceChar_eq_false_of_range (c : Char) (h1 : 65 ≤ c.toNat)
    (h2 : c.toNat ≤ 122) : jsWhitespaceChar c = false := by
  have hne : ∀ d : Char, d.toNat < 65 ∨ 122 < d.toNat → ¬ c = d := by
    intro d hd h
    rw [h] at h1 h2
    omega
  simp only [jsWhitespaceChar, Bool.or_eq_false_iff, decide_eq_false_iff_not]
  exact ⟨⟨⟨⟨⟨⟨hne ' ' (by decide), hne '\t' (by decide)⟩, hne '\n' (by decide)⟩,
    hne '\x0d' (by decide)⟩, hne '\x0b' (by decide)⟩, hne '\x0c' (by decide)⟩,
    hne '\u00A0' (by decide)⟩

/-- Lowering an uppercase ASCII letter adds 32 to its code. -/
theorem toLower_toNat_of_upper (c : Char) (h : c.toNat ≥ 65 ∧ c.toNat ≤ 90) :
    c.toLower.toNat = c.toNat + 32 := by
  unfold Char.toLower
  rw [if_pos h]
  obtain ⟨h1, h2⟩ := h
  generalize c.toNat = n at h1 h2 ⊢
  interval_cases n <;> decide

/-- `toLower` fixes everything outside the uppercase ASCII range. -/
theorem toLower_eq_self_of_not_upper (c : Char)
    (h : ¬ (c.toNat ≥ 65 ∧ c.toNat ≤ 90)) : c.toLower = c := by
  unfold Char.toLower
  rw [if_neg h]

/-- `Char.toLower` is idempotent. -/
theorem toLower_toLower (c : Char) : c.toLower.toLower = c.toLower := by
  by_cases h : c.toNat ≥ 65 ∧ c.toNat ≤ 90
  · have h3 := toLower_toNat_of_upper c h
    exact toLower_eq_self_of_not_upper _ (by omega)
  · rw [toLower_eq_self_of_not_upper c h, toLower_eq_self_of_not_upper c h]

/-- Lowering preserves whitespace-ness. -/
theorem jsWhitespaceChar_toLower (c : Char) :
    jsWhitespaceChar c.toLower = jsWhitespaceChar c := by
  by_cases h : c.toNat ≥ 65 ∧ c.toNat ≤ 90
  · have h3 := toLower_toNat_of_upper c h
    rw [jsWhitespaceChar_eq_false_of_range c.toLower (by omega) (by omega),
      jsWhitespaceChar_eq_false_of_range c (by omega) (by omega)]
  · rw [toLower_eq_self_of_not_upper c h]

/-- Mapping `toLower` twice equals mapping it once. -/
theorem map_toLower_map_toLower (l : List Char) :
    (l.map Char.toLower).map Char.toLower = l.map Char.toLower := by
  rw [List.map_map]
  exact List.map_congr_left (fun a _ => toLower_toLower a)

/-- Leading-whitespace trimming commutes with lowering. -/
theorem trimLeadingWs_map_toLower (l : List Char) :
    trimLeadingWs (l.map Char.toLower) = (trimLeadingWs l).map Char.toLower := by
  unfold trimLeadingWs
  rw [List.dropWhile_map]
  have hp : (jsWhitespaceChar ∘ Char.toLower) = jsWhitespaceChar :=
    funext jsWhitespaceChar_toLower
  rw [hp]

/-- Trailing-whitespace trimming commutes with lowering. -/
theorem trimTrailingWs_map_toLower (l : List Char) :
    trimTrailingWs (l.map Char.toLower) =
      (trimTrailingWs l).map Char.toLower := by
  unfold trimTrailingWs
  rw [← List.map_reverse, trimLeadingWs_map_toLower, List.map_reverse]

/-- `trimTrailingWs l` is a prefix of `l`. -/
theorem trimTrailingWs_prefix (l : List Char) :
    ∃ q, l = trimTrailingWs l ++ q := by
  obtain ⟨pre, hpre⟩ := dropWhile_eq_append jsWhitespaceChar l.reverse
  refine ⟨pre.reverse, ?_⟩
  conv_lhs => rw [← List.reverse_reverse l, hpre]
  simp [trimTrailingWs, trimLeadingWs, List.reverse_append]

/-- If `l` has no leading whitespace, neither does its trailing-trim. -/
theorem trimLeadingWs_trimTrailingWs_of_fixed (l : List Char)
    (hfix : trimLeadingWs l = l) :
    trimLeadingWs (trimTrailingWs l) = trimTrailingWs l := by
  obtain ⟨q, hq⟩ := trimTrailingWs_prefix l
  cases hT : trimTrailingWs l with
  | nil => rfl
  | cons c t =>
    rw [hT] at hq
    have hwc : jsWhitespaceChar c = false := by
      cases hc : jsWhitespaceChar c with
      | false => rfl
      | true =>
        exfalso
        have heq : trimLeadingWs l = trimLeadingWs (t ++ q) := by
          rw [hq]
          simp [trimLeadingWs, List.dropWhile_cons, hc]
        have hlen : (trimLeadingWs (t ++ q)).length ≤ (t ++ q).length :=
          (List.dropWhile_sublist _).length_le
        rw [hfix] at heq
        have hlength : (trimLeadingWs (t ++ q)).length = (t ++ q).length + 1 := by
          rw [← heq, hq]
          simp
        omega
    simp [trimLeadingWs, List.dropWhile_cons, hwc]

/-- Leading-whitespace trimming is idempotent. -/
theorem trimLeadingWs_idem (l : List Char) :
    trimLeadingWs (trimLeadingWs l) = trimLeadingWs l :=
  dropWhile_dropWhile_same jsWhitespaceChar l

/-- Trailing-whitespace trimming is idempotent. -/
theorem trimTrailingWs_idem (l : List Char) :
    trimTrailingWs (trimTrailingWs l) = trimTrailingWs l := by
  unfold trimTrailingWs trimLeadingWs
  rw [List.reverse_reverse, dropWhile_dropWhile_same]

/-- The list-level normalization `trim ∘ lower` is idempotent. -/
theorem lowerTrim_idem (l : List Char) :
    trimTrailingWs (trimLeadingWs
        ((trimTrailingWs (trimLeadingWs (l.map Char.toLower))).map
          Char.toLower)) =
      trimTrailingWs (trimLeadingWs (l.map Char.toLower)) := by
  have hm : (trimTrailingWs (trimLeadingWs (l.map Char.toLower))).map
        Char.toLower =
      trimTrailingWs (trimLeadingWs (l.map Char.toLower)) := by
    rw [← trimTrailingWs_map_toLower, ← trimLeadingWs_map_toLower,
      map_toLower_map_toLower]
  rw [hm,
    trimLeadingWs_trimTrailingWs_of_fixed _
      (trimLeadingWs_idem (l.map Char.toLower)),
    trimTrailingWs_idem]

/-- The normalization `component.toLowerCase().trim()` is idempotent. -/
theorem jsNormalize_idem (s : String) :
    jsTrim (jsLower (jsTrim (jsLower s))) = jsTrim (jsLower s) := by
  unfold jsTrim jsLower
  exact congrArg String.mk (lowerTrim_idem s.data)

/-- Every entry of `validateComponents(...).valid` is normalization-fixed and
a member of the known-components list. -/
theorem validateComponents_valid_spec (items known : List String) :
    ∀ v ∈ (validateComponents items known).valid,
      jsTrim (jsLower v) = v ∧ known.contains v = true := by
  induction items with
  | nil => simp [validateComponents]
  | cons c rest ih =>
    intro v hv
    by_cases h : known.contains (jsTrim (jsLower c))
    · simp only [validateComponents, h, if_pos, List.mem_cons] at hv
      rcases hv with hv | hv
      · subst hv
        exact ⟨jsNormalize_idem c, h⟩
      · exact ih v hv
    · simp only [validateComponents, h, if_neg, Bool.false_eq_true,
        if_false] at hv
      exact ih v hv

/-- A list of normalization-fixed known components re-validates to itself. -/
theorem validateComponents_fixed (l known : List String)
    (h : ∀ v ∈ l, jsTrim (jsLower v) = v ∧ known.contains v = true) :
    validateComponents l known = ⟨l, [], []⟩ := by
  induction l with
  | nil => rfl
  | cons c rest ih =>
    obtain ⟨hc1, hc2⟩ := h c (by simp)
    have hrest := ih (fun v hv => h v (by simp [hv]))
    simp only [validateComponents, hrest, hc1, hc2, if_pos]

/-- **C8.** Component validation is idempotent: validating
`["BUTTON", "Card"]` yields `valid = ["button", "card"]`, and for every list
of items, re-running `validateComponents` on the returned `valid` list against
the same known-components set yields the same `valid` list unchanged, with
empty `invalid` and `suggestions`. -/
theorem claim_C8_validation_idempotent :
    validateComponents ["BUTTON", "Card"] FALLBACK_COMPONENTS =
      ⟨["button", "card"], [], []⟩ ∧
    ∀ items known : List String,
      validateComponents (validateComponents items known).valid known =
        ⟨(validateComponents items known).valid, [], []⟩ := by
  constructor
  · decide
  · intro items known
    exact validateComponents_fixed _ known (validateComponents_valid_spec items known)

/-! ## Sorting lemmas for the catalog search (C5) -/

/-- `insertByScoreDesc` permutes its inputs. -/
theorem insertByScoreDesc_perm (x : ManifestBlock × Int)
    (l : List (ManifestBlock × Int)) :
    (insertByScoreDesc x l).Perm (x :: l) := by
  induction l with
  | nil => exact List.Perm.refl _
  | cons y ys ih =>
    by_cases h : y.2 ≤ x.2
    · simp [insertByScoreDesc, h]
    · simp only [insertByScoreDesc, h, if_false]
      exact ((ih.cons y).trans (List.Perm.swap x y ys))

/-- `sortByScoreDesc` permutes its input. -/
theorem sortByScoreDesc_perm (l : List (ManifestBlock × Int)) :
    (sortByScoreDesc l).Perm l := by
  induction l with
  | nil => exact List.Perm.refl _
  | cons x xs ih => exact (insertByScoreDesc_perm x _).trans (ih.cons x)

/-- Inserting into a descending-by-score list keeps it descending. -/
theorem insertByScoreDesc_pairwise (x : ManifestBlock × Int)
    (l : List (ManifestBlock × Int))
    (h : l.Pairwise (fun a b => b.2 ≤ a.2)) :
    (insertByScoreDesc x l).Pairwise (fun a b => b.2 ≤ a.2) := by
  induction l with
  | nil => simp [insertByScoreDesc]
  | cons y ys ih =>
    rw [List.pairwise_cons] at h
    by_cases hle : y.2 ≤ x.2
    · simp only [insertByScoreDesc, hle, if_true]
      rw [List.pairwise_cons]
      refine ⟨?_, List.pairwise_cons.mpr h⟩
      intro z hz
      rcases List.mem_cons.mp hz with hz | hz
      · subst hz; exact hle
      · exact le_trans (h.1 z hz) hle
    · simp only [insertByScoreDesc, hle, if_false]
      rw [List.pairwise_cons]
      refine ⟨?_, ih h.2⟩
      intro z hz
      rcases List.mem_cons.mp ((insertByScoreDesc_perm x ys).mem_iff.mp hz) with
        hz | hz
      · subst hz; omega
      · exact h.1 z hz
  
/-- The sorted output is pairwise descending by score. -/
theorem sortByScoreDesc_pairwise (l : List (ManifestBlock × Int)) :
    (sortByScoreDesc l).Pairwise (fun a b => b.2 ≤ a.2) := by
  induction l with
  | nil => simp [sortByScoreDesc]
  | cons x xs ih => exact insertByScoreDesc_pairwise x _ ih

/-- Filtering by an exact score commutes with `insertByScoreDesc`: the
inserted element lands in front of all equal scores. -/
theorem insertByScoreDesc_filter (x : ManifestBlock × Int)
    (l : List (ManifestBlock × Int)) (n : Int) :
    (insertByScoreDesc x l).filter (fun s => s.2 == n) =
      if x.2 == n then x :: l.filter (fun s => s.2 == n)
      else l.filter (fun s => s.2 == n) := by
  induction l with
  | nil => by_cases hx : x.2 == n <;> simp [insertByScoreDesc, hx]
  | cons y ys ih =>
    by_cases hle : y.2 ≤ x.2
    · by_cases hx : x.2 == n <;> by_cases hy : y.2 == n <;>
        simp [insertByScoreDesc, hle, List.filter_cons, hx, hy]
    · by_cases hx : x.2 == n <;> by_cases hy : y.2 == n
      · exfalso
        have hx' : x.2 = n := by simpa using hx
        have hy' : y.2 = n := by simpa using hy
        omega
      · simp [insertByScoreDesc, hle, List.filter_cons, hx, hy, ih]
      · simp [insertByScoreDesc, hle, List.filter_cons, hx, hy, ih]
      · simp [insertByScoreDesc, hle, List.filter_cons, hx, hy, ih]

/-- Filtering by an exact score commutes with the stable sort: equal-score
elements keep their original relative order. -/
theorem sortByScoreDesc_filter (l : List (ManifestBlock × Int)) (n : Int) :
    (sortByScoreDesc l).filter (fun s => s.2 == n) =
      l.filter (fun s => s.2 == n) := by
  induction l with
  | nil => rfl
  | cons x xs ih =>
    show (insertByScoreDesc x (sortByScoreDesc xs)).filter _ = _
    rw [insertByScoreDesc_filter, ih]
    by_cases hx : x.2 == n <;> simp [List.filter_cons, hx]

/-- The score exactly as claim C5 words it: seven independent additive rules
(the "partial" name and keyword rules read as plain substring containment,
additively combined with the exact rules — "contributions are additive across
all matching rules, not mutually exclusive"). -/
def claimAdditiveScore (block : ManifestBlock) (query : String) : Int :=
  let q := jsLower query
  (if jsLower block.name = q then 100 else 0) +
  (if jsIncludes (jsLower block.name) q then 50 else 0) +
  (if jsIncludes (jsLower block.id) q then 40 else 0) +
  (if block.keywords.any (fun k => jsLower k = q) then 30 else 0) +
  (if block.keywords.any (fun k => jsIncludes (jsLower k) q) then 20 else 0) +
  (if block.categories.any (fun c => jsIncludes (jsLower c) q) then 15 else 0) +
  (if jsIncludes (jsLower block.description) q then 10 else 0)

/-- The score the code actually computes, stated closed-form: the exact and
partial name rules are mutually exclusive (`else if`), all other rules
additive. -/
def specScoreAmended (block : ManifestBlock) (query : String) : Int :=
  let q := jsLower query
  (if jsLower block.name = q then 100
   else if jsIncludes (jsLower block.name) q then 50 else 0) +
  (if jsIncludes (jsLower block.id) q then 40 else 0) +
  (if block.keywords.any (fun k => jsLower k = q) then 30 else 0) +
  (if block.keywords.any (fun k => jsIncludes (jsLower k) q) then 20 else 0) +
  (if block.categories.any (fun c => jsIncludes (jsLower c) q) then 15 else 0) +
  (if jsIncludes (jsLower block.description) q then 10 else 0)

/-- **C5, counterexample.** For a block whose name matches the query exactly
and whose id contains it, the claim's fully-additive reading gives
`100 + 50 + 40 = 190` (an exact name match is also a substring match), but
`scoreMatch` gives `100 + 40 = 140`: the exact and partial name rules are
mutually exclusive in the code. -/
theorem claim_C5_counterexample :
    claimAdditiveScore
        ⟨"hero-01", "Hero", "", [], [], Plan.pro, "", ""⟩ "Hero" = 190 ∧
    scoreMatch ⟨"hero-01", "Hero", "", [], [], Plan.pro, "", ""⟩ "Hero" = 140 ∧
    claimAdditiveScore ⟨"hero-01", "Hero", "", [], [], Plan.pro, "", ""⟩ "Hero" ≠
      scoreMatch ⟨"hero-01", "Hero", "", [], [], Plan.pro, "", ""⟩ "Hero" := by
  refine ⟨by decide, by decide, by decide⟩

set_option maxHeartbeats 3200000 in
/-- **C5, amended.** The catalog search computes an integer score per block in
which the exact-name (100) and partial-name (50) rules are mutually exclusive
(`else if`) while the id (40), exact-keyword (30), partial-keyword (20),
category (15) and description (10) contributions are additive; blocks scoring
0 are dropped and the remainder sorted descending by score, stable on ties so
that equal-score blocks keep their original manifest order. -/
theorem claim_C5_amended :
    (∀ block query, scoreMatch block query = specScoreAmended block query) ∧
    (∀ (blocks : List ManifestBlock) (query : String),
      (rankByQuery blocks query).Pairwise (fun a b => b.2 ≤ a.2)) ∧
    (∀ (blocks : List ManifestBlock) (query : String) (n : Int),
      (rankByQuery blocks query).filter (fun s => s.2 == n) =
        ((blocks.map (fun block => (block, scoreMatch block query))).filter
          (fun s => 0 < s.2)).filter (fun s => s.2 == n)) ∧
    (∀ (blocks : List ManifestBlock) (query : String),
      (rankByQuery blocks query).Perm
        ((blocks.map (fun block => (block, scoreMatch block query))).filter
          (fun s => 0 < s.2))) := by
  refine ⟨?_, ?_, ?_, ?_⟩
  · intro block query
    unfold scoreMatch specScoreAmended
    dsimp only
    split_ifs <;> omega
  · intro blocks query
    exact sortByScoreDesc_pairwise _
  · intro blocks query n
    exact sortByScoreDesc_filter _ n
  · intro blocks query
    exact sortByScoreDesc_perm _

/-! ## Lemmas for the search handler (C6) -/

/-- A block of the ranked output was one of the scored input blocks. -/
theorem rankByQuery_fst_mem (blocks : List ManifestBlock) (query : String)
    (b : ManifestBlock)
    (hb : b ∈ (rankByQuery blocks query).map
      (fun (s : ManifestBlock × Int) => s.1)) : b ∈ blocks := by
  obtain ⟨s, hs, hseq⟩ := List.mem_map.mp hb
  have hs2 : s ∈ (blocks.map (fun block => (block, scoreMatch block query))).filter
      (fun s => 0 < s.2) := (sortByScoreDesc_perm _).mem_iff.mp hs
  have hs3 := (List.mem_filter.mp hs2).1
  obtain ⟨b0, hb0, hb0eq⟩ := List.mem_map.mp hs3
  rw [← hseq, ← hb0eq]
  exact hb0

/-- Membership in the query-scoring step implies membership in its input. -/
theorem mem_of_mem_applyQueryScoring (query : Option String)
    (results : List ManifestBlock) (b : ManifestBlock)
    (hb : b ∈ applyQueryScoring query results) : b ∈ results := by
  rcases query with _ | query
  · exact hb
  · simp only [applyQueryScoring] at hb
    by_cases hq : query = ""
    · rw [if_pos hq] at hb
      exact hb
    · rw [if_neg hq] at hb
      exact rankByQuery_fst_mem results query b hb

/-- Membership in the plan-filter step implies membership in its input. -/
theorem mem_of_mem_applyPlanFilter (plan : Option Plan)
    (results : List ManifestBlock) (b : ManifestBlock)
    (hb : b ∈ applyPlanFilter plan results) : b ∈ results := by
  rcases plan with _ | plan
  · exact hb
  · exact (List.mem_filter.mp hb).1

/-- Membership in a truthy category-filter step forces the category. -/
theorem mem_applyCategoryFilter_categories (cat : String) (hne : cat ≠ "")
    (results : List ManifestBlock) (b : ManifestBlock)
    (hb : b ∈ applyCategoryFilter (some cat) results) :
    b.categories.any (fun c => jsLower c = jsLower cat) = true := by
  simp only [applyCategoryFilter, if_neg hne] at hb
  exact (List.mem_filter.mp hb).2

/-- Every block returned by `searchBlocks` under a truthy category filter has
that category (case-insensitively). -/
theorem searchBlocks_blocks_categories (manifest : Manifest)
    (args : SearchProBlocksArgs) (now : Int) (source : Source)
    (mc : Option ManifestCacheEntry) (cat : String)
    (hcat : args.category = some cat) (hne : cat ≠ "") :
    ∀ rb ∈ (searchBlocks manifest args now source mc).blocks,
      rb.categories.any (fun c => jsLower c = jsLower cat) = true := by
  intro rb hrb
  simp only [searchBlocks] at hrb
  obtain ⟨block, hbmem, hbeq⟩ := List.mem_map.mp hrb
  have hb3 := List.mem_of_mem_take hbmem
  have hb2 := mem_of_mem_applyQueryScoring _ _ _ hb3
  have hb1 := mem_of_mem_applyPlanFilter _ _ _ hb2
  rw [hcat] at hb1
  have hcats : rb.categories = block.categories := by rw [← hbeq]
  rw [hcats]
  exact mem_applyCategoryFilter_categories cat hne _ block hb1

/-- The truncation arithmetic of `searchBlocks`. -/
theorem searchBlocks_resultsReturned (manifest : Manifest)
    (args : SearchProBlocksArgs) (now : Int) (source : Source)
    (mc : Option ManifestCacheEntry) :
    (searchBlocks manifest args now source mc).resultsReturned =
      min (searchBlocks manifest args now source mc).totalMatches
        (min (max 1 (args.limit.getD 10)) 50).toNat := by
  simp only [searchBlocks]
  rw [List.length_take, Nat.min_comm]

/-- **C6.** For every Pro-block search invocation that supplies at least one
of query/category/plan and for which the manifest resolves: the `limit`
argument defaults to 10 and is clamped to `[1, 50]`; truncation happens after
filtering and scoring; `totalMatches` is the pre-truncation match count,
`resultsReturned = min(totalMatches, clamped limit) ≤ min(totalMatches, 50)`;
and with a category filter every returned block has that category
case-insensitively. -/
theorem claim_C6_limit_clamping (args : SearchProBlocksArgs) (now : Int)
    (net : Option Manifest) (st : ProState) (manifest : Manifest)
    (source : Source) (st' : ProState)
    (hfilter : (truthyStr args.query || truthyStr args.category ||
      args.plan.isSome) = true)
    (hman : getManifest now net st = (ManifestOutcome.ok manifest source, st')) :
    searchProBlocksHandler args now net st =
      (ProSearchOutcome.results
        (searchBlocks manifest args now source st'.manifestCache), st') ∧
    (searchBlocks manifest args now source st'.manifestCache).resultsReturned =
      min (searchBlocks manifest args now source st'.manifestCache).totalMatches
        (min (max 1 (args.limit.getD 10)) 50).toNat ∧
    (searchBlocks manifest args now source st'.manifestCache).resultsReturned ≤
      min (searchBlocks manifest args now source st'.manifestCache).totalMatches
        50 ∧
    ∀ cat, args.category = some cat → cat ≠ "" →
      ∀ rb ∈ (searchBlocks manifest args now source st'.manifestCache).blocks,
        rb.categories.any (fun c => jsLower c = jsLower cat) = true := by
  refine ⟨?_, searchBlocks_resultsReturned _ _ _ _ _, ?_, ?_⟩
  · simp [searchProBlocksHandler, hfilter, hman]
  · have h1 := searchBlocks_resultsReturned manifest args now source
      st'.manifestCache
    have h2 : (min (max 1 (args.limit.getD 10)) 50).toNat ≤ 50 := by omega
    omega
  · intro cat hcat hne
    exact searchBlocks_blocks_categories manifest args now source
      st'.manifestCache cat hcat hne

/-- A small concrete manifest used to instantiate search theorems. -/
def sampleManifest : Manifest :=
  { name := "starwind-pro-blocks", version := "1.0.0", generatedAt := "2025",
    baseUrl := "https://pro.starwind.dev", totalBlocks := 2,
    categories := ["hero", "footer"],
    blocks :=
      [{ id := "hero-01", name := "Hero", description := "A hero section",
         categories := ["hero"], keywords := ["landing"], plan := Plan.pro,
         installCommand := "starwind add hero-01",
         previewUrl := "/preview/hero-01" },
       { id := "footer-01", name := "Footer", description := "A footer",
         categories := ["footer"], keywords := ["site"], plan := Plan.free,
         installCommand := "starwind add footer-01",
         previewUrl := "/preview/footer-01" }] }

/-- Witness for C6: searching `category = "footer"`, `limit = 3` against the
sample manifest freshly fetched at `t = 0`. -/
theorem claim_C6_limit_clamping_witness :
    searchProBlocksHandler { category := some "footer", limit := some 3 } 0
        (some sampleManifest) ProState.initial =
      (ProSearchOutcome.results
        (searchBlocks sampleManifest
          { category := some "footer", limit := some 3 } 0 Source.network
          (ProState.mk (some ⟨sampleManifest, 0, 3600000⟩) [0]).manifestCache),
       ProState.mk (some ⟨sampleManifest, 0, 3600000⟩) [0]) ∧
    (searchBlocks sampleManifest { category := some "footer", limit := some 3 }
        0 Source.network
        (ProState.mk (some ⟨sampleManifest, 0, 3600000⟩) [0]).manifestCache).resultsReturned =
      min (searchBlocks sampleManifest
          { category := some "footer", limit := some 3 } 0 Source.network
          (ProState.mk (some ⟨sampleManifest, 0, 3600000⟩) [0]).manifestCache).totalMatches
        (min (max 1 ((some (3 : Int)).getD 10)) 50).toNat ∧
    (searchBlocks sampleManifest { category := some "footer", limit := some 3 }
        0 Source.network
        (ProState.mk (some ⟨sampleManifest, 0, 3600000⟩) [0]).manifestCache).resultsReturned ≤
      min (searchBlocks sampleManifest
          { category := some "footer", limit := some 3 } 0 Source.network
          (ProState.mk (some ⟨sampleManifest, 0, 3600000⟩) [0]).manifestCache).totalMatches
        50 ∧
    (searchBlocks sampleManifest { category := some "footer", limit := some 3 }
        0 Source.network
        (ProState.mk (some ⟨sampleManifest, 0, 3600000⟩) [0]).manifestCache).blocks.all
      (fun rb => rb.categories.any (fun c => jsLower c = jsLower "footer")) =
      true := by
  have h := claim_C6_limit_clamping
    { category := some "footer", limit := some 3 } 0 (some sampleManifest)
    ProState.initial sampleManifest Source.network
    (ProState.mk (some ⟨sampleManifest, 0, 3600000⟩) [0]) (by decide) rfl
  refine ⟨h.1, h.2.1, h.2.2.1, ?_⟩
  exact List.all_eq_true.mpr
    (fun rb hrb => h.2.2.2 "footer" rfl (by decide) rb hrb)

/-! ## C7: the add handler's two validation-failure channels -/

/-- **C7, counterexample.** The claim says every non-empty component list in
which no item validates against the known-components set yields a structured
`success: false` result. But `["--all"]` is non-empty, none of its items
validates (`validateComponents` puts `"--all"` in `invalid`), and the handler
returns a *success* result via the `--all` short-circuit, which skips
validation entirely. -/
theorem claim_C7_counterexample :
    (validateComponents ["--all"] FALLBACK_COMPONENTS).valid = [] ∧
    (starwindAddHandler { components := ["--all"] } PackageManager.npm 0 none
        AddState.initial).1 =
      AddOutcome.ok
        { packageManager := PackageManager.npm,
          commands := ["npx starwind@latest add --all --yes"],
          command := "npx starwind@latest add --all --yes",
          componentsToInstall := ["all"], warnings := none,
          availableComponents := FALLBACK_COMPONENTS,
          componentSource := Source.fallback } := by
  refine ⟨by decide, by decide⟩

/-- **C7, amended.** The add-command handler signals its two validation
failures through deliberately different channels: an empty components list
causes a thrown error, while a non-empty list that does not trigger the
`--all`/`all` short-circuit and in which no item validates against the
known-components set returns (does not throw) a structured result containing
`success: false`, an error message, the invalid names, and the suggestions
mapping. -/
theorem claim_C7_amended (args : StarwindAddArgs)
    (detectedPm : PackageManager) (now : Int) (net : Option String)
    (st : AddState) (hne : args.components ≠ [])
    (hnoall : args.components.any
      (fun c => jsLower c = "--all" || jsLower c = "all") = false)
    (hinvalid : (validateComponents args.components
      ((getAvailableComponents now net st).1.1)).valid = []) :
    (∀ (init2 : Bool) (pmo2 : Option PackageManager)
        (pm2 : PackageManager) (now2 : Int) (net2 : Option String)
        (st2 : AddState),
      starwindAddHandler ⟨[], init2, pmo2⟩ pm2 now2 net2 st2 =
        (AddOutcome.thrown "At least one component must be specified", st2)) ∧
    starwindAddHandler args detectedPm now net st =
      (AddOutcome.invalidResult "No valid components specified"
        (validateComponents args.components
          ((getAvailableComponents now net st).1.1)).invalid
        (validateComponents args.components
          ((getAvailableComponents now net st).1.1)).suggestions
        ((getAvailableComponents now net st).1.1)
        ((getAvailableComponents now net st).1.2),
       (getAvailableComponents now net st).2) := by
  constructor
  · intro init2 pmo2 pm2 now2 net2 st2
    rfl
  · have hisempty : args.components.isEmpty = false := by
      cases h : args.components with
      | nil => exact absurd h hne
      | cons a l => rfl
    simp only [starwindAddHandler, hisempty, Bool.false_eq_true, if_false,
      hnoall, hinvalid, List.isEmpty_nil]
    rfl

/-- Witness for C7 (amended): the concrete invalid input `["zzz"]` against the
fallback component list. -/
theorem claim_C7_amended_witness :
    starwindAddHandler ⟨[], false, none⟩ PackageManager.npm 0 none
        AddState.initial =
      (AddOutcome.thrown "At least one component must be specified",
       AddState.initial) ∧
    starwindAddHandler { components := ["zzz"] } PackageManager.npm 0 none
        AddState.initial =
      (AddOutcome.invalidResult "No valid components specified"
        (validateComponents ["zzz"]
          ((getAvailableComponents 0 none AddState.initial).1.1)).invalid
        (validateComponents ["zzz"]
          ((getAvailableComponents 0 none AddState.initial).1.1)).suggestions
        ((getAvailableComponents 0 none AddState.initial).1.1)
        ((getAvailableComponents 0 none AddState.initial).1.2),
       (getAvailableComponents 0 none AddState.initial).2) := by
  have h := claim_C7_amended { components := ["zzz"] } PackageManager.npm 0
    none AddState.initial (by decide) (by decide) (by decide)
  exact ⟨h.1 false none PackageManager.npm 0 none AddState.initial, h.2⟩

/-! ## C3: behavior on network fetch failure -/

/-- The `componentCache && Date.now() < componentCache.expiresAt` check. -/
def componentCacheHit (now : Int) (st : AddState) : Bool :=
  match st.componentCache with
  | some cc => decide (now < cc.expiresAt)
  | none => false

/-- The `manifestCache && Date.now() < manifestCache.expiresAt` check. -/
def manifestCacheHit (now : Int) (st : ProState) : Bool :=
  match st.manifestCache with
  | some mc => decide (now < mc.expiresAt)
  | none => false

/-- `getMarkdownUrl` returns a URL for every topic (its TypeScript return
type admits `null`, but every branch returns a string). -/
theorem getMarkdownUrl_isSome (topic : String) :
    ∃ u, getMarkdownUrl topic = some u := by
  unfold getMarkdownUrl
  rcases h : DOC_PAGE_PATHS.lookup (jsTrim (jsLower topic)) with _ | p
  · by_cases hk : KNOWN_COMPONENTS.contains (jsTrim (jsLower topic)) <;>
      simp [h, hk]
  · exact ⟨DOCS_URLS_base ++ p ++ "markdown.md", by simp [h]⟩

/-- **C3.** When a network fetch fails (transport error or non-success HTTP
status): the component-name-list resolver returns the bundled static list
tagged `source = "fallback"` instead of raising; the standard/full
documentation and Pro-manifest resolvers raise an error to the caller; and
the specific-page documentation lookup does not raise but falls through to
fetching and filtering the broader llms.txt document (here exhibited with the
llms.txt document already cached: the result is the topic-filtered document
tagged `"fallback"`). -/
theorem claim_C3_fetch_failure_handling (now : Int)
    (stA : AddState) (hA : componentCacheHit now stA = false)
    (stD : DocsState) (fullD : Option Bool) (cacheD1 : DocsCache)
    (limD1 : List Int) (netPageD : Option String)
    (hDmiss : DocsCache.get now
      (if fullD = some true then "docs_full" else "docs_standard") stD.cache =
      (none, cacheD1))
    (hDcan : DocsRateLimiter.canMakeCall DOCS_RATE_LIMIT now
      stD.lastCallTimes = (true, limD1))
    (stP : ProState) (hP : manifestCacheHit now stP = false)
    (callsP1 : List Int)
    (hPcan : ProRateLimiter.canMakeCall PRO_RATE_LIMIT PRO_WINDOW_MS now
      stP.calls = (true, callsP1))
    (stE : DocsState) (raw : String) (hraw : raw ≠ "") (fullE : Option Bool)
    (cacheE1 : DocsCache) (limE1 : List Int)
    (hEmiss : DocsCache.get now ("page_" ++ jsTrim (jsLower raw)) stE.cache =
      (none, cacheE1))
    (hEcan : DocsRateLimiter.canMakeCall DOCS_RATE_LIMIT now
      stE.lastCallTimes = (true, limE1))
    (content : String) (cacheE2 : DocsCache) (netDocsE : Option String)
    (hEllms : DocsCache.get now
      (if fullE = some true then "docs_full" else "docs_standard") cacheE1 =
      (some content, cacheE2)) :
    (getAvailableComponents now none stA).1 =
      (FALLBACK_COMPONENTS, Source.fallback) ∧
    (starwindDocsHandler ⟨none, fullD⟩ now netPageD none stD).1 =
      DocsOutcome.fetchFailed ∧
    (getManifest now none stP).1 = ManifestOutcome.fetchFailed ∧
    (∃ r, (starwindDocsHandler ⟨some raw, fullE⟩ now none netDocsE stE).1 =
        DocsOutcome.ok r ∧
      r.source = Source.fallback ∧
      r.documentation = applyTopicFilter raw content) := by
  refine ⟨?_, ?_, ?_, ?_⟩
  · cases hcc : stA.componentCache with
    | none =>
      simp [getAvailableComponents, hcc,
        getAvailableComponents.getAvailableComponentsFetch]
    | some cc =>
      rw [componentCacheHit, hcc] at hA
      simp only [decide_eq_false_iff_not] at hA
      simp [getAvailableComponents, hcc, hA,
        getAvailableComponents.getAvailableComponentsFetch]
  · by_cases hf : fullD = some true
    · rw [if_pos hf] at hDmiss
      simp [starwindDocsHandler, truthyTopic, llmsPath, hf, hDmiss, hDcan]
    · rw [if_neg hf] at hDmiss
      simp [starwindDocsHandler, truthyTopic, llmsPath, hf, hDmiss, hDcan]
  · cases hmc : stP.manifestCache with
    | none => simp [getManifest, hmc, getManifest.getManifestMiss, hPcan]
    | some mc =>
      rw [manifestCacheHit, hmc] at hP
      simp only [decide_eq_false_iff_not] at hP
      simp [getManifest, hmc, hP, getManifest.getManifestMiss, hPcan]
  · obtain ⟨mdUrl, hmd⟩ := getMarkdownUrl_isSome (jsTrim (jsLower raw))
    by_cases hf : fullE = some true
    · rw [if_pos hf] at hEllms
      simp [starwindDocsHandler, truthyTopic, hraw, hmd, hEmiss, hEcan,
        llmsPath, hf, hEllms]
    · rw [if_neg hf] at hEllms
      simp [starwindDocsHandler, truthyTopic, hraw, hmd, hEmiss, hEcan,
        llmsPath, hf, hEllms]

/-- A concrete docs cache holding the standard llms.txt document (set at
`t = 0` with the standard 1-hour TTL). -/
def sampleDocsCache : DocsCache :=
  DocsCache.set 0 "docs_standard" "# Docs\nbody" 3600 DocsCache.empty

/-- Witness for C3 at concrete inputs: fresh states at `t = 5`, all network
fetches failing, and (for the page-fallthrough part) the standard document
already cached. -/
theorem claim_C3_fetch_failure_handling_witness :
    (getAvailableComponents 5 none AddState.initial).1 =
      (FALLBACK_COMPONENTS, Source.fallback) ∧
    (starwindDocsHandler ⟨none, none⟩ 5 none none DocsState.initial).1 =
      DocsOutcome.fetchFailed ∧
    (getManifest 5 none ProState.initial).1 = ManifestOutcome.fetchFailed ∧
    (∃ r, (starwindDocsHandler ⟨some "button", none⟩ 5 none none
        (DocsState.mk sampleDocsCache [])).1 = DocsOutcome.ok r ∧
      r.source = Source.fallback ∧
      r.documentation = applyTopicFilter "button" "# Docs\nbody") :=
  claim_C3_fetch_failure_handling 5 AddState.initial (by decide)
    DocsState.initial none DocsCache.empty [] none rfl rfl
    ProState.initial (by decide) [] rfl
    (DocsState.mk sampleDocsCache []) "button" (by decide) none
    sampleDocsCache [] rfl rfl
    "# Docs\nbody" sampleDocsCache none rfl

/-! ## C2: rate-limit check before fetching -/

/-- **C2, counterexample.** The claim includes the component name list among
the resources whose resolver checks `RateLimiter.canMakeCall()` before any
network fetch and fails with a rate-limit error when the quota is exhausted.
But `getAvailableComponents` consults no rate limiter at all: its module
state is only the component cache, and on a cache miss it unconditionally
performs the fetch — succeeding (`source = "network"`) or falling back
(`source = "fallback"`), never failing with a rate-limit error. -/
theorem claim_C2_counterexample :
    (getAvailableComponents 0
        (some "[Button](https://starwind.dev/docs/components/button)")
        AddState.initial).1 = (["button"], Source.network) ∧
    (getAvailableComponents 0 none AddState.initial).1 =
      (FALLBACK_COMPONENTS, Source.fallback) := by
  refine ⟨by decide, by decide⟩

/-- **C2, amended.** For the standard docs, full docs, specific-page, and
Pro-manifest resources: on a cache miss the resolver checks
`canMakeCall()` before any network fetch, and if the quota is exhausted it
fails with a rate-limit error carrying the reset time in seconds instead of
fetching (the outcome and resulting state are independent of the network
oracle, no call is recorded, and the cache is not populated). The
component-name-list resolver performs no rate-limit check: on a cache miss it
always performs the fetch, falling back to the bundled static list on
failure. -/
theorem claim_C2_amended (now : Int)
    (stD : DocsState) (fullD : Option Bool) (cacheD1 : DocsCache)
    (limD1 : List Int) (netPageD netDocsD : Option String)
    (hDmiss : DocsCache.get now
      (if fullD = some true then "docs_full" else "docs_standard") stD.cache =
      (none, cacheD1))
    (hDcan : DocsRateLimiter.canMakeCall DOCS_RATE_LIMIT now
      stD.lastCallTimes = (false, limD1))
    (stE : DocsState) (raw : String) (hraw : raw ≠ "") (fullE : Option Bool)
    (cacheE1 : DocsCache) (limE1 : List Int) (netPageE netDocsE : Option String)
    (hEmiss : DocsCache.get now ("page_" ++ jsTrim (jsLower raw)) stE.cache =
      (none, cacheE1))
    (hEcan : DocsRateLimiter.canMakeCall DOCS_RATE_LIMIT now
      stE.lastCallTimes = (false, limE1))
    (stP : ProState) (hP : manifestCacheHit now stP = false)
    (callsP1 : List Int)
    (hPcan : ProRateLimiter.canMakeCall PRO_RATE_LIMIT PRO_WINDOW_MS now
      stP.calls = (false, callsP1))
    (netP : Option Manifest)
    (stA : AddState) (hA : componentCacheHit now stA = false) :
    starwindDocsHandler ⟨none, fullD⟩ now netPageD netDocsD stD =
      (DocsOutcome.rateLimited
        (DocsRateLimiter.getResetTimeSeconds now limD1) DOCS_RATE_LIMIT,
       DocsState.mk cacheD1 limD1) ∧
    starwindDocsHandler ⟨some raw, fullE⟩ now netPageE netDocsE stE =
      (DocsOutcome.rateLimited
        (DocsRateLimiter.getResetTimeSeconds now limE1) DOCS_RATE_LIMIT,
       DocsState.mk cacheE1 limE1) ∧
    getManifest now netP stP =
      (ManifestOutcome.rateLimited
        (ProRateLimiter.getResetTimeSeconds PRO_WINDOW_MS now callsP1).1
        PRO_RATE_LIMIT,
       ProState.mk stP.manifestCache
        (ProRateLimiter.getResetTimeSeconds PRO_WINDOW_MS now callsP1).2) ∧
    (getAvailableComponents now none stA).1 =
      (FALLBACK_COMPONENTS, Source.fallback) := by
  refine ⟨?_, ?_, ?_, ?_⟩
  · by_cases hf : fullD = some true
    · rw [if_pos hf] at hDmiss
      simp [starwindDocsHandler, truthyTopic, llmsPath, hf, hDmiss, hDcan]
    · rw [if_neg hf] at hDmiss
      simp [starwindDocsHandler, truthyTopic, llmsPath, hf, hDmiss, hDcan]
  · obtain ⟨mdUrl, hmd⟩ := getMarkdownUrl_isSome (jsTrim (jsLower raw))
    simp [starwindDocsHandler, truthyTopic, hraw, hmd, hEmiss, hEcan]
  · cases hmc : stP.manifestCache with
    | none => simp [getManifest, hmc, getManifest.getManifestMiss, hPcan]
    | some mc =>
      rw [manifestCacheHit, hmc] at hP
      simp only [decide_eq_false_iff_not] at hP
      simp [getManifest, hmc, hP, getManifest.getManifestMiss, hPcan]
  · cases hcc : stA.componentCache with
    | none =>
      simp [getAvailableComponents, hcc,
        getAvailableComponents.getAvailableComponentsFetch]
    | some cc =>
      rw [componentCacheHit, hcc] at hA
      simp only [decide_eq_false_iff_not] at hA
      simp [getAvailableComponents, hcc, hA,
        getAvailableComponents.getAvailableComponentsFetch]

/-- Ten in-window timestamps exhausting the docs tool's 10-per-minute quota
at `now = 5`. -/
def tenCalls : List Int := [1, 1, 1, 1, 1, 1, 1, 1, 1, 1]

/-- Three in-window timestamps exhausting the pro manifest's 3-per-minute
quota at `now = 5`. -/
def threeCalls : List Int := [1, 2, 3]

/-- Witness for C2 (amended): exhausted limiters at `t = 5`, empty caches,
all hypotheses discharged concretely. -/
theorem claim_C2_amended_witness :
    starwindDocsHandler ⟨none, none⟩ 5 none none
        (DocsState.mk DocsCache.empty tenCalls) =
      (DocsOutcome.rateLimited
        (DocsRateLimiter.getResetTimeSeconds 5 tenCalls) DOCS_RATE_LIMIT,
       DocsState.mk DocsCache.empty tenCalls) ∧
    starwindDocsHandler ⟨some "button", none⟩ 5 none none
        (DocsState.mk DocsCache.empty tenCalls) =
      (DocsOutcome.rateLimited
        (DocsRateLimiter.getResetTimeSeconds 5 tenCalls) DOCS_RATE_LIMIT,
       DocsState.mk DocsCache.empty tenCalls) ∧
    getManifest 5 none (ProState.mk none threeCalls) =
      (ManifestOutcome.rateLimited
        (ProRateLimiter.getResetTimeSeconds PRO_WINDOW_MS 5 threeCalls).1
        PRO_RATE_LIMIT,
       ProState.mk none
        (ProRateLimiter.getResetTimeSeconds PRO_WINDOW_MS 5 threeCalls).2) ∧
    (getAvailableComponents 5 none AddState.initial).1 =
      (FALLBACK_COMPONENTS, Source.fallback) :=
  claim_C2_amended 5 (DocsState.mk DocsCache.empty tenCalls) none
    DocsCache.empty tenCalls none none rfl rfl
    (DocsState.mk DocsCache.empty tenCalls) "button" (by decide) none
    DocsCache.empty tenCalls none none rfl rfl
    (ProState.mk none threeCalls) (by decide) threeCalls rfl none
    AddState.initial (by decide)

/-! ## C9: rate-limit budgets per resource -/

/-- **C9, counterexample.** The claim says the standard/full documentation
fetcher is limited to 3 calls per minute. But the docs tool's
single shared limiter is constructed with `maxCallsPerMinute = 10`: with
three in-window calls already recorded (at 170000, 171000, 172000 ms), a
fourth standard-docs fetch at 180000 ms is *not* rate-limited — it proceeds
to the network (`requestsRemaining` drops to 6). -/
theorem claim_C9_counterexample :
    (starwindDocsHandler ⟨none, none⟩ 180000 none (some "DOC")
        (DocsState.mk DocsCache.empty [170000, 171000, 172000])).1 =
      DocsOutcome.ok
        { documentation := "DOC", source := Source.network,
          url := DOCS_URLS_standard, topic := none, full := false,
          pageType := none, cacheInfo := some ⟨0, 3600⟩,
          requestsRemaining := 6, resetAfter := 50 } := by
  decide

/-- Pruning after appending the current timestamp to an already-pruned list
changes nothing. -/
theorem pruneWindow_pruned_append (now : Int) (ts : List Int) :
    DocsRateLimiter.pruneWindow now
        (DocsRateLimiter.pruneWindow now ts ++ [now]) =
      DocsRateLimiter.pruneWindow now ts ++ [now] := by
  unfold DocsRateLimiter.pruneWindow
  rw [List.filter_append]
  have hnow : (now : Int) - 60000 < now := by omega
  congr 1
  · rw [List.filter_filter]
    apply List.filter_congr
    intro x _
    rw [Bool.and_self]
  · simp [hnow]

/-- **C9, amended.** The Pro-manifest fetcher is limited to 3 calls per
minute by its own limiter; the docs tool's standard, full, and specific-page
fetches all draw on one shared limiter of 10 calls per minute — so page
fetches consume the same budget the standard/full fetches check (a
successful page fetch appends its timestamp to the very list the llms.txt
path consults), while the manifest limiter lives in a separate module state
(`ProState`) and is untouched by docs fetches. -/
theorem claim_C9_amended (now : Int)
    (stD : DocsState) (fullD : Option Bool) (cacheD1 : DocsCache)
    (limD1 : List Int) (netPageD netDocsD : Option String)
    (hDmiss : DocsCache.get now
      (if fullD = some true then "docs_full" else "docs_standard") stD.cache =
      (none, cacheD1))
    (hDcan : DocsRateLimiter.canMakeCall DOCS_RATE_LIMIT now
      stD.lastCallTimes = (false, limD1))
    (stE : DocsState) (raw : String) (hraw : raw ≠ "") (fullE : Option Bool)
    (cacheE1 : DocsCache) (limE1 : List Int) (netPageE netDocsE : Option String)
    (hEmiss : DocsCache.get now ("page_" ++ jsTrim (jsLower raw)) stE.cache =
      (none, cacheE1))
    (hEcan : DocsRateLimiter.canMakeCall DOCS_RATE_LIMIT now
      stE.lastCallTimes = (false, limE1))
    (stP : ProState) (hP : manifestCacheHit now stP = false)
    (callsP1 : List Int)
    (hPcan : ProRateLimiter.canMakeCall PRO_RATE_LIMIT PRO_WINDOW_MS now
      stP.calls = (false, callsP1))
    (netP : Option Manifest)
    (stF : DocsState) (raw2 : String) (hraw2 : raw2 ≠ "")
    (fullF : Option Bool) (cacheF1 : DocsCache) (limF1 : List Int)
    (pageContent : String) (netDocsF : Option String)
    (hFmiss : DocsCache.get now ("page_" ++ jsTrim (jsLower raw2)) stF.cache =
      (none, cacheF1))
    (hFcan : DocsRateLimiter.canMakeCall DOCS_RATE_LIMIT now
      stF.lastCallTimes = (true, limF1)) :
    (starwindDocsHandler ⟨none, fullD⟩ now netPageD netDocsD stD).1 =
      DocsOutcome.rateLimited
        (DocsRateLimiter.getResetTimeSeconds now limD1) DOCS_RATE_LIMIT ∧
    (starwindDocsHandler ⟨some raw, fullE⟩ now netPageE netDocsE stE).1 =
      DocsOutcome.rateLimited
        (DocsRateLimiter.getResetTimeSeconds now limE1) DOCS_RATE_LIMIT ∧
    (getManifest now netP stP).1 =
      ManifestOutcome.rateLimited
        (ProRateLimiter.getResetTimeSeconds PRO_WINDOW_MS now callsP1).1
        PRO_RATE_LIMIT ∧
    ((starwindDocsHandler ⟨some raw2, fullF⟩ now (some pageContent) netDocsF
        stF).2.lastCallTimes = limF1 ++ [now] ∧
      (getManifest now netP stP).2.manifestCache = stP.manifestCache ∧
      ∃ r, (starwindDocsHandler ⟨some raw2, fullF⟩ now (some pageContent)
          netDocsF stF).1 = DocsOutcome.ok r ∧ r.source = Source.network) := by
  have hlimF : limF1 = DocsRateLimiter.pruneWindow now stF.lastCallTimes := by
    have := congrArg Prod.snd hFcan
    exact this.symm
  refine ⟨?_, ?_, ?_, ?_, ?_, ?_⟩
  · by_cases hf : fullD = some true
    · rw [if_pos hf] at hDmiss
      simp [starwindDocsHandler, truthyTopic, llmsPath, hf, hDmiss, hDcan]
    · rw [if_neg hf] at hDmiss
      simp [starwindDocsHandler, truthyTopic, llmsPath, hf, hDmiss, hDcan]
  · obtain ⟨mdUrl, hmd⟩ := getMarkdownUrl_isSome (jsTrim (jsLower raw))
    simp [starwindDocsHandler, truthyTopic, hraw, hmd, hEmiss, hEcan]
  · cases hmc : stP.manifestCache with
    | none => simp [getManifest, hmc, getManifest.getManifestMiss, hPcan]
    | some mc =>
      rw [manifestCacheHit, hmc] at hP
      simp only [decide_eq_false_iff_not] at hP
      simp [getManifest, hmc, hP, getManifest.getManifestMiss, hPcan]
  · obtain ⟨mdUrl, hmd⟩ := getMarkdownUrl_isSome (jsTrim (jsLower raw2))
    simp [starwindDocsHandler, truthyTopic, hraw2, hmd, hFmiss, hFcan,
      pageResult, DocsRateLimiter.rateLimitInfo,
      DocsRateLimiter.getRemainingCalls, DocsRateLimiter.recordCall, hlimF,
      pruneWindow_pruned_append]
  · cases hmc : stP.manifestCache with
    | none => simp [getManifest, hmc, getManifest.getManifestMiss, hPcan]
    | some mc =>
      rw [manifestCacheHit, hmc] at hP
      simp only [decide_eq_false_iff_not] at hP
      simp [getManifest, hmc, hP, getManifest.getManifestMiss, hPcan]
  · obtain ⟨mdUrl, hmd⟩ := getMarkdownUrl_isSome (jsTrim (jsLower raw2))
    simp [starwindDocsHandler, truthyTopic, hraw2, hmd, hFmiss, hFcan,
      pageResult]

/-- Witness for C9 (amended): exhausted docs and manifest limiters at
`t = 5`, plus a fresh state whose page fetch succeeds and records into the
shared list. -/
theorem claim_C9_amended_witness :
    (starwindDocsHandler ⟨none, none⟩ 5 none none
        (DocsState.mk DocsCache.empty tenCalls)).1 =
      DocsOutcome.rateLimited
        (DocsRateLimiter.getResetTimeSeconds 5 tenCalls) DOCS_RATE_LIMIT ∧
    (starwindDocsHandler ⟨some "button", none⟩ 5 none none
        (DocsState.mk DocsCache.empty tenCalls)).1 =
      DocsOutcome.rateLimited
        (DocsRateLimiter.getResetTimeSeconds 5 tenCalls) DOCS_RATE_LIMIT ∧
    (getManifest 5 none (ProState.mk none threeCalls)).1 =
      ManifestOutcome.rateLimited
        (ProRateLimiter.getResetTimeSeconds PRO_WINDOW_MS 5 threeCalls).1
        PRO_RATE_LIMIT ∧
    ((starwindDocsHandler ⟨some "button", none⟩ 5 (some "PAGE") none
        DocsState.initial).2.lastCallTimes = [] ++ [5] ∧
      (getManifest 5 none (ProState.mk none threeCalls)).2.manifestCache =
        (ProState.mk none threeCalls).manifestCache ∧
      ∃ r, (starwindDocsHandler ⟨some "button", none⟩ 5 (some "PAGE") none
          DocsState.initial).1 = DocsOutcome.ok r ∧
        r.source = Source.network) :=
  claim_C9_amended 5 (DocsState.mk DocsCache.empty tenCalls) none
    DocsCache.empty tenCalls none none rfl rfl
    (DocsState.mk DocsCache.empty tenCalls) "button" (by decide) none
    DocsCache.empty tenCalls none none rfl rfl
    (ProState.mk none threeCalls) (by decide) threeCalls rfl none
    DocsState.initial "button" (by decide) none DocsCache.empty [] "PAGE" none
    rfl rfl
